import Mathlib

/-!
Verification of the game engine in `src/lib/game.ts` of the
ultimate-tictactoe repository (Next.js app).  The TypeScript engine is
shallowly embedded: every exported function of `game.ts` becomes an
executable Lean definition over an explicit `GameState` record, JS
`undefined`/`null` option fields become `Option`, JS arrays become `List`,
and the result objects `{ state, error?, ... }` become Lean structures.

Embedding notes (JS semantics that need an explicit modelling decision):
* `playMove` in the source assigns to `pendingFinalRps` without declaring
  the local variable (TypeScript error TS2304, a `ReferenceError` at
  runtime).  The embedding initialises the local from
  `state.pendingFinalRps`, the evident intent (the declared locals right
  above it are all initialised from the corresponding `state` fields);
  the slip itself is reported against the claim about the arming path.
* JS array reads out of range yield `undefined`; they are embedded with
  `List.get?`.  Where the source would crash on out-of-range data
  (`state.boards[state.nextBoard].winner` with a corrupt `nextBoard`),
  the embedding takes a documented total default; the theorems below
  restrict such cases with explicit well-formedness hypotheses.
* `Math.random()` is embedded by threading an arbitrary `Nat` oracle and
  reducing it modulo the number of alternatives, which realises exactly
  the indices `Math.floor(Math.random() * n)` can produce.
* JS numbers in the evaluator are embedded as `ℚ` (all values occurring
  there are small dyadic rationals, exactly representable as doubles);
  the `-Infinity` / `Infinity` seeds of the fold-based max/min are
  embedded by folding from the first element of the (guarded non-empty)
  move list, which computes the same value.
-/

/-- Players, `type Player = "X" | "O"`. -/
inductive Player where
  | X
  | O
deriving DecidableEq, Repr

/-- Flip a player, the JS idiom `p === "X" ? "O" : "X"`. -/
def otherPlayer : Player → Player
  | Player.X => Player.O
  | Player.O => Player.X

/-- One square of a micro board, `type Cell = Player | null`. -/
def Cell : Type := Option Player
deriving instance DecidableEq, Repr for Cell

/-- AI levels, `type BotLevel = "none" | "easy" | "smart" | "hard"`. -/
inductive BotLevel where
  | nolevel
  | easy
  | smart
  | hard
deriving DecidableEq, Repr

/-- Throws, `type RpsChoice = "rock" | "paper" | "scissors" | "lizard" | "spock"`. -/
inductive RpsChoice where
  | rock
  | paper
  | scissors
  | lizard
  | spock
deriving DecidableEq, Repr

/-- Total map from players to values, the TS `Record<Player, T>`. -/
structure PlayerMap (α : Type) where
  X : α
  O : α
deriving DecidableEq, Repr

/-- Read the entry of one player. -/
def PlayerMap.get {α : Type} (m : PlayerMap α) : Player → α
  | Player.X => m.X
  | Player.O => m.O

/-- Update the entry of one player, the JS `{ ...m, [player]: v }`. -/
def PlayerMap.set {α : Type} (m : PlayerMap α) : Player → α → PlayerMap α
  | Player.X, v => { m with X := v }
  | Player.O, v => { m with O := v }

/-- Per-round throws, the TS `Partial<Record<Player, RpsChoice>>` (a player
with no throw recorded is `none`). -/
def Picks : Type := PlayerMap (Option RpsChoice)
deriving instance DecidableEq, Repr for Picks

/-- Empty picks object `{}`. -/
def Picks.empty : Picks := ⟨none, none⟩

/-- Value of the `lastOutcome` field, `Player | "tie"`. -/
inductive RpsOutcome where
  | winner (p : Player)
  | tie
deriving DecidableEq, Repr

/-- Micro-tiebreak sub-state, TS `RpsState` (absent `lastOutcome` is `none`). -/
structure RpsState where
  picks : Picks
  lastOutcome : Option RpsOutcome
deriving DecidableEq, Repr

/-- Galaxy-tiebreak sub-state, TS `FinalRpsState`. -/
structure FinalRpsState where
  picks : Picks
  lastOutcome : Option RpsOutcome
  score : PlayerMap Int
  rounds : Int
deriving DecidableEq, Repr

/-- Winner of a micro board, `Player | "CAT"` (the whole field being the
TS `Player | "CAT" | null`, embedded as `Option MicroWin`). -/
inductive MicroWin where
  | won (p : Player)
  | CAT
deriving DecidableEq, Repr

/-- One micro board, TS `MicroBoardState` (the `rps?: RpsState | null`
field collapses JS `undefined` and `null` into `none`). -/
structure MicroBoardState where
  cells : List Cell
  winner : Option MicroWin
  rps : Option RpsState
deriving DecidableEq, Repr

/-- The aggregate state, TS `GameState`. -/
structure GameState where
  boards : List MicroBoardState
  macroWinner : Option Player
  currentPlayer : Player
  nextBoard : Option Nat
  pendingRpsBoard : Option Nat
  pendingFinalRps : Bool
  finalRps : Option FinalRpsState
  names : PlayerMap String
  bots : PlayerMap BotLevel
deriving DecidableEq, Repr

/-- The eight tic-tac-toe lines, `WIN_LINES`. -/
def WIN_LINES : List (Nat × Nat × Nat) :=
  [(0, 1, 2), (3, 4, 5), (6, 7, 8), (0, 3, 6), (1, 4, 7), (2, 5, 8), (0, 4, 8), (2, 4, 6)]

/-- Default display names, `defaultNames`. -/
def defaultNames : PlayerMap String := ⟨"Player X", "Player O"⟩

/-- Fresh micro board, `createEmptyBoard()`. -/
def createEmptyBoard : MicroBoardState :=
  { cells := List.replicate 9 none, winner := none, rps := none }

/-- Fresh match, `createInitialState()`. -/
def createInitialState : GameState :=
  { boards := List.replicate 9 createEmptyBoard
    macroWinner := none
    currentPlayer := Player.X
    nextBoard := none
    pendingRpsBoard := none
    pendingFinalRps := false
    finalRps := none
    names := defaultNames
    bots := ⟨BotLevel.nolevel, BotLevel.nolevel⟩ }

/-- Read `cells[i]`; a JS out-of-range read yields `undefined`, which the
line check below treats exactly like `null`, so both collapse to `none`. -/
def cellAt (cells : List Cell) (i : Nat) : Cell :=
  (cells.get? i).getD none

/-- Board full check, `boardIsFull` (`cells.every(Boolean)`). -/
def boardIsFull (cells : List Cell) : Bool :=
  cells.all fun c => c.isSome

/-- Line winner, `detectWinner`: first line of `WIN_LINES` fully owned by
one player, in table order. -/
def detectWinner (cells : List Cell) : Option Player :=
  WIN_LINES.findSome? fun l =>
    match cellAt cells l.1 with
    | some p =>
        if cellAt cells l.2.1 = some p ∧ cellAt cells l.2.2 = some p then some p else none
    | none => none

/-- Macro winner over the nine micro results, `determineMacroWinner`
(a CAT board counts as an empty macro cell). -/
def determineMacroWinner (boards : List MicroBoardState) : Option Player :=
  detectWinner (boards.map fun b =>
    match b.winner with
    | some (MicroWin.won p) => some p
    | _ => none)

/-- Indices of the still-open boards, in index order (the
`map`/`filter`/`map` chain of the source). -/
def openBoardIdxs (boards : List MicroBoardState) : List Nat :=
  (boards.enum.filter fun bi => bi.2.winner = none).map fun bi => bi.1

/-- Legal target boards, `getAllowedBoards`.  With a corrupt out-of-range
`nextBoard` the JS crashes on `target.winner`; the embedding returns the
open boards there, and every theorem touching that branch carries a
well-formedness hypothesis keeping `nextBoard` in range. -/
def getAllowedBoards (state : GameState) : List Nat :=
  if state.pendingRpsBoard.isSome ∨ state.pendingFinalRps then []
  else
    match state.nextBoard with
    | none => openBoardIdxs state.boards
    | some t =>
        match state.boards.get? t with
        | some target => if target.winner = none then [t] else openBoardIdxs state.boards
        | none => openBoardIdxs state.boards

/-- Result object of `playMove`, `{ state, error? }`. -/
structure MoveResult where
  state : GameState
  error : Option String
deriving DecidableEq, Repr

/-- Fresh galaxy-tiebreak record `{ picks: {}, lastOutcome: undefined,
score: { X: 0, O: 0 }, rounds: 0 }`. -/
def freshFinalRps : FinalRpsState :=
  { picks := Picks.empty, lastOutcome := none, score := ⟨0, 0⟩, rounds := 0 }

/-- The move engine, `playMove(state, boardIndex, cellIndex)`.  The local
`pendingFinalRps` is initialised from `state.pendingFinalRps` (see the
header note: the source assigns to it without a declaration). -/
def playMove (state : GameState) (boardIndex cellIndex : Nat) : MoveResult :=
  if state.pendingRpsBoard.isSome then
    { state, error := some "Finish Rock-Paper-Scissors first." }
  else
    let allowed := getAllowedBoards state
    if boardIndex ∉ allowed then
      { state, error := some "You cannot play in that board right now." }
    else
      -- `boardIndex` is in range here: `allowed` only holds board indices.
      let board := (state.boards.get? boardIndex).getD createEmptyBoard
      if board.winner ≠ none then
        { state, error := some "That board is already decided." }
      else if (board.cells.get? cellIndex) ≠ some none then
        -- JS `board.cells[cellIndex] !== null`: both an occupied square and
        -- an out-of-range index (`undefined`) are rejected.
        { state, error := some "That square is already taken." }
      else
        let updatedCells := board.cells.set cellIndex (some state.currentPlayer)
        let microWinner := detectWinner updatedCells
        let updatedBoard : MicroBoardState :=
          match microWinner with
          | some w => { board with cells := updatedCells, winner := some (MicroWin.won w) }
          | none =>
              if boardIsFull updatedCells then
                { cells := updatedCells, winner := some MicroWin.CAT
                  rps := some { picks := Picks.empty, lastOutcome := none } }
              else
                { board with cells := updatedCells }
        let pendingRpsBoard : Option Nat :=
          match microWinner with
          | some _ => state.pendingRpsBoard
          | none => if boardIsFull updatedCells then some boardIndex else state.pendingRpsBoard
        let updatedBoards := state.boards.set boardIndex updatedBoard
        let macroWinner := determineMacroWinner updatedBoards
        let nextBoard : Option Nat :=
          match updatedBoards.get? cellIndex with
          | some target => if target.winner ≠ none then none else some cellIndex
          | none => some cellIndex
        let allBoardsClosed := updatedBoards.all fun b => b.winner ≠ none
        let pendingFinalRps :=
          if macroWinner = none ∧ allBoardsClosed ∧ pendingRpsBoard = none then true
          else state.pendingFinalRps
        let nextPlayer := otherPlayer state.currentPlayer
        { state :=
            { state with
              boards := updatedBoards
              macroWinner
              currentPlayer := nextPlayer
              nextBoard
              pendingRpsBoard
              pendingFinalRps
              finalRps :=
                if pendingFinalRps ∧ state.finalRps = none then some freshFinalRps
                else state.finalRps }
          error := none }

/-- Domination table `RPS_RULES`: the throws a given throw defeats. -/
def RPS_RULES : RpsChoice → List RpsChoice
  | RpsChoice.rock => [RpsChoice.scissors, RpsChoice.lizard]
  | RpsChoice.paper => [RpsChoice.rock, RpsChoice.spock]
  | RpsChoice.scissors => [RpsChoice.paper, RpsChoice.lizard]
  | RpsChoice.lizard => [RpsChoice.spock, RpsChoice.paper]
  | RpsChoice.spock => [RpsChoice.scissors, RpsChoice.rock]

/-- Result of `compareRps`, the string union `"a" | "b" | "tie"`. -/
inductive RpsCmp where
  | A
  | B
  | Tie
deriving DecidableEq, Repr

/-- Throw comparison, `compareRps(a, b)`. -/
def compareRps (a b : RpsChoice) : RpsCmp :=
  if a = b then RpsCmp.Tie
  else if b ∈ RPS_RULES a then RpsCmp.A
  else RpsCmp.B

/-- Narration table `RPS_VERBS` (partial; looked up winner-first). -/
def RPS_VERBS : RpsChoice → RpsChoice → Option String
  | RpsChoice.rock, RpsChoice.scissors => some "crushes"
  | RpsChoice.rock, RpsChoice.lizard => some "crushes"
  | RpsChoice.paper, RpsChoice.rock => some "covers"
  | RpsChoice.paper, RpsChoice.spock => some "disproves"
  | RpsChoice.scissors, RpsChoice.paper => some "cuts"
  | RpsChoice.scissors, RpsChoice.lizard => some "decapitates"
  | RpsChoice.lizard, RpsChoice.spock => some "poisons"
  | RpsChoice.lizard, RpsChoice.paper => some "eats"
  | RpsChoice.spock, RpsChoice.scissors => some "smashes"
  | RpsChoice.spock, RpsChoice.rock => some "vaporizes"
  | _, _ => none

/-- Verb lookup with default, `rpsVerb(a, b)`. -/
def rpsVerb (a b : RpsChoice) : String :=
  (RPS_VERBS a b).getD "beats"

/-- The `resolvedRps` descriptor returned on a decisive micro round. -/
structure ResolvedRps where
  boardIndex : Nat
  winner : Player
  picks : PlayerMap RpsChoice
  verb : String
deriving DecidableEq, Repr

/-- Result object of `submitRpsChoice`, `{ state, error?, resolvedRps? }`. -/
structure RpsSubmitResult where
  state : GameState
  error : Option String
  resolvedRps : Option ResolvedRps
deriving DecidableEq, Repr

/-- Shared fall-through tail of `submitRpsChoice` (the code after the
`picks.X && picks.O` conditional, reached on a tied round and on a
half-complete round): writes the updated board back and re-checks the
galaxy-tiebreak arming condition with the still-set `pendingRpsBoard`. -/
def microSubmitTail (state : GameState) (boardIndex : Nat)
    (updatedBoard : MicroBoardState) (currentPlayer : Player) : RpsSubmitResult :=
  let updatedBoards := state.boards.set boardIndex updatedBoard
  if state.macroWinner = none ∧ state.pendingRpsBoard = none ∧
      updatedBoards.all (fun b => b.winner ≠ none) then
    { state :=
        { state with
          boards := updatedBoards
          pendingRpsBoard := state.pendingRpsBoard
          macroWinner := state.macroWinner
          currentPlayer
          pendingFinalRps := true
          finalRps := some (state.finalRps.getD freshFinalRps) }
      error := none
      resolvedRps := none }
  else
    { state :=
        { state with
          boards := updatedBoards
          pendingRpsBoard := state.pendingRpsBoard
          macroWinner := state.macroWinner
          currentPlayer }
      error := none
      resolvedRps := none }

/-- Micro-tiebreak submission, `submitRpsChoice(state, player, choice)`.
With a corrupt out-of-range `pendingRpsBoard` the JS crashes on
`board.rps`; the embedding substitutes an empty board there (the write
back with `List.set` at that index is then a no-op). -/
def submitRpsChoice (state : GameState) (player : Player) (choice : RpsChoice) :
    RpsSubmitResult :=
  match state.pendingRpsBoard with
  | none => { state, error := some "No RPS pending.", resolvedRps := none }
  | some boardIndex =>
      let board := (state.boards.get? boardIndex).getD createEmptyBoard
      let existing := board.rps.getD { picks := Picks.empty, lastOutcome := none }
      let picks := existing.picks.set player (some choice)
      let nextTurn := state.currentPlayer
      match picks.X, picks.O with
      | some px, some po =>
          match compareRps px po with
          | RpsCmp.Tie =>
              let updatedBoard :=
                { board with rps := some { picks := Picks.empty, lastOutcome := some RpsOutcome.tie } }
              microSubmitTail state boardIndex updatedBoard (otherPlayer player)
          | outcome =>
              let winningPlayer := if outcome = RpsCmp.A then Player.X else Player.O
              let updatedBoard :=
                { board with
                  winner := some (MicroWin.won winningPlayer)
                  rps := some { picks := picks, lastOutcome := some (RpsOutcome.winner winningPlayer) } }
              let resolved : ResolvedRps :=
                { boardIndex
                  winner := winningPlayer
                  picks := ⟨px, po⟩
                  verb := if outcome = RpsCmp.A then rpsVerb px po else rpsVerb po px }
              let updatedBoards := state.boards.set boardIndex updatedBoard
              let macroWinner := determineMacroWinner updatedBoards
              if macroWinner = none ∧ updatedBoards.all (fun b => b.winner ≠ none) then
                { state :=
                    { state with
                      boards := updatedBoards
                      pendingRpsBoard := none
                      macroWinner
                      currentPlayer := nextTurn
                      pendingFinalRps := true
                      finalRps := some (state.finalRps.getD freshFinalRps) }
                  error := none
                  resolvedRps := some resolved }
              else
                { state :=
                    { state with
                      boards := updatedBoards
                      pendingRpsBoard := none
                      macroWinner
                      currentPlayer := nextTurn }
                  error := none
                  resolvedRps := some resolved }
      | _, _ =>
          let updatedBoard := { board with rps := some { existing with picks := picks } }
          microSubmitTail state boardIndex updatedBoard (otherPlayer player)

/-- Result object of `submitFinalRpsChoice`, `{ state, error?, finalWinner? }`. -/
structure FinalSubmitResult where
  state : GameState
  error : Option String
  finalWinner : Option Player
deriving DecidableEq, Repr

/-- Galaxy-tiebreak submission, `submitFinalRpsChoice(state, player, choice)`.
The decisive branch is embedded as in the source, including the
end-of-match test `finalRps.score[winningPlayer] + 1 >= 2` being applied
to the already incremented score. -/
def submitFinalRpsChoice (state : GameState) (player : Player) (choice : RpsChoice) :
    FinalSubmitResult :=
  match state.finalRps with
  | none => { state, error := some "No final RPSLS pending.", finalWinner := none }
  | some fr =>
      if ¬ state.pendingFinalRps then
        { state, error := some "No final RPSLS pending.", finalWinner := none }
      else
        let picks := fr.picks.set player (some choice)
        match picks.X, picks.O with
        | some px, some po =>
            match compareRps px po with
            | RpsCmp.Tie =>
                let finalRps :=
                  { fr with picks := Picks.empty, lastOutcome := some RpsOutcome.tie }
                { state :=
                    { state with
                      finalRps := some finalRps
                      pendingFinalRps := state.pendingFinalRps
                      macroWinner := state.macroWinner
                      currentPlayer := otherPlayer player }
                  error := none
                  finalWinner := none }
            | outcome =>
                let winningPlayer := if outcome = RpsCmp.A then Player.X else Player.O
                let finalRps : FinalRpsState :=
                  { picks := Picks.empty
                    lastOutcome := some (RpsOutcome.winner winningPlayer)
                    score := fr.score.set winningPlayer (fr.score.get winningPlayer + 1)
                    rounds := fr.rounds + 1 }
                if finalRps.score.get winningPlayer + 1 ≥ 2 then
                  { state :=
                      { state with
                        finalRps := some finalRps
                        pendingFinalRps := false
                        macroWinner := some winningPlayer
                        currentPlayer := otherPlayer player }
                    error := none
                    finalWinner := some winningPlayer }
                else
                  { state :=
                      { state with
                        finalRps := some finalRps
                        pendingFinalRps := state.pendingFinalRps
                        macroWinner := state.macroWinner
                        currentPlayer := otherPlayer player }
                    error := none
                    finalWinner := none }
        | _, _ =>
            { state :=
                { state with
                  finalRps := some { fr with picks := picks }
                  pendingFinalRps := state.pendingFinalRps
                  macroWinner := state.macroWinner
                  currentPlayer := otherPlayer player }
              error := none
              finalWinner := none }

/-- One playable square, the `{ board, cell }` objects of `availableMoves`. -/
structure Move where
  board : Nat
  cell : Nat
deriving DecidableEq, Repr

/-- Move enumeration, `availableMoves(state)`: for each allowed board in
order, its empty cells in index order. -/
def availableMoves (state : GameState) : List Move :=
  (getAllowedBoards state).flatMap fun boardIndex =>
    (((state.boards.get? boardIndex).getD createEmptyBoard).cells.enum.filterMap
      fun ci => if ci.2 = none then some ⟨boardIndex, ci.1⟩ else none)

/-- Line-potential score, `scoreLines(cells, player)`: sums over the eight
lines the occupancy bonuses / penalties of the source. -/
def scoreLines (cells : List Cell) (player : Player) : Int :=
  let opponent := otherPlayer player
  WIN_LINES.foldl
    (fun score l =>
      let values := [cellAt cells l.1, cellAt cells l.2.1, cellAt cells l.2.2]
      let ours := (values.filter fun v => v = some player).length
      let theirs := (values.filter fun v => v = some opponent).length
      let empty := (values.filter fun v => v = none).length
      if theirs = 0 then
        if ours = 3 then score + 100
        else if ours = 2 ∧ empty = 1 then score + 15
        else if ours = 1 ∧ empty = 2 then score + 3
        else score
      else if ours = 0 then
        if theirs = 3 then score - 100
        else if theirs = 2 ∧ empty = 1 then score - 12
        else if theirs = 1 ∧ empty = 2 then score - 2
        else score
      else score)
    0

/-- Static evaluator, `evaluateState(state, player)`.  Scores are `ℚ`
because of the `1.5` focus weight (see the header note on JS numbers). -/
def evaluateState (state : GameState) (player : Player) : ℚ :=
  let opponent := otherPlayer player
  if state.macroWinner = some player then 5000
  else if state.macroWinner = some opponent then -5000
  else
    let macroCells : List Cell := state.boards.map fun b =>
      match b.winner with
      | some (MicroWin.won p) => some p
      | _ => none
    let macroScore : ℚ := (scoreLines macroCells player : ℚ) * 20
    let microScore : ℚ :=
      (state.boards.enum.foldl
        (fun acc bi =>
          let idx := bi.1
          let board := bi.2
          match board.winner with
          | some MicroWin.CAT => acc
          | some (MicroWin.won p) =>
              if p = player then acc + 50 else acc - 50
          | none =>
              let weight : ℚ :=
                if state.nextBoard = none ∨ state.nextBoard = some idx then 3 / 2 else 1
              acc + (scoreLines board.cells player : ℚ) * weight)
        0)
    macroScore + microScore

/-- Bounded-depth search, `minimax(state, depth, maximizing, player)`.
The `-Infinity` / `Infinity` fold seeds of the source are embedded by
folding from the first move's score; the move list is non-empty on that
path (the source returns the evaluator's value on an empty list first). -/
def minimax (state : GameState) (depth : Nat) (maximizing : Bool) (player : Player) : ℚ :=
  if state.macroWinner.isSome then
    if state.macroWinner = some player then 10000 else -10000
  else if _hd : depth = 0 then evaluateState state player
  else if state.pendingRpsBoard.isSome then evaluateState state player
  else
    match availableMoves state with
    | [] => evaluateState state player
    | m :: ms =>
        if maximizing then
          ms.foldl
            (fun best mv =>
              max best (minimax (playMove state mv.board mv.cell).state (depth - 1) false player))
            (minimax (playMove state m.board m.cell).state (depth - 1) false player)
        else
          ms.foldl
            (fun best mv =>
              min best (minimax (playMove state mv.board mv.cell).state (depth - 1) true player))
            (minimax (playMove state m.board m.cell).state (depth - 1) true player)
termination_by depth
decreasing_by all_goals omega

/-- Body of the root minimax loop of `chooseAIMove` (the `bestScore`
update; the `-Infinity` seed is the `none` accumulator, which any finite
score beats). -/
def bestMoveStep (g : Move → ℚ) (acc : Option (Move × ℚ)) (mv : Move) : Option (Move × ℚ) :=
  let score := g mv
  match acc with
  | none => some (mv, score)
  | some (bm, bs) => if score > bs then some (mv, score) else some (bm, bs)

/-- AI move selection, `chooseAIMove(state, level)`.  The `rand` oracle
stands for `Math.random()` (see the header note); everything after the
root minimax loop is the source's fallback chain, unreachable whenever
the move list is non-empty but embedded all the same. -/
def chooseAIMove (rand : Nat) (state : GameState) (level : BotLevel) : Option Move :=
  let moves := availableMoves state
  if moves.length = 0 then none
  else if level = BotLevel.easy then moves.get? (rand % moves.length)
  else if state.pendingRpsBoard.isSome then none
  else
    let depth : Nat := if level = BotLevel.hard then 3 else 2
    let self := state.currentPlayer
    let best :=
      moves.foldl
        (bestMoveStep fun mv =>
          minimax (playMove state mv.board mv.cell).state (depth - 1) false self)
        none
    match best with
    | some (bm, _) => some bm
    | none =>
        let opponent := otherPlayer state.currentPlayer
        let tryScore := fun (p : Player) =>
          moves.find? fun mv =>
            determineMacroWinner (playMove state mv.board mv.cell).state.boards = some p
        match tryScore self with
        | some m => some m
        | none =>
            match tryScore opponent with
            | some m => some m
            | none =>
                match moves.find? fun m => m.cell = 4 with
                | some m => some m
                | none =>
                    match moves.find? fun m => m.cell ∈ [0, 2, 6, 8] with
                    | some m => some m
                    | none => moves.head?

/-- Uniform throw, `randomRpsChoice()` (the oracle index is always in
range after the reduction modulo 5). -/
def randomRpsChoice (rand : Nat) : RpsChoice :=
  [RpsChoice.rock, RpsChoice.paper, RpsChoice.scissors, RpsChoice.lizard,
    RpsChoice.spock].getD (rand % 5) RpsChoice.rock

/-- JSON value trees.  `serializeState` / `parseState` in the source work
on strings via `JSON.stringify` / `JSON.parse`; the embedding works on
the parsed tree (`num` is `Int`: every number the engine ever serialises
is an integer), with `parseState`'s `Option Json` argument covering the
`null` / `undefined` / unparseable-string inputs, all of which the source
maps to the initial state. -/
inductive Json where
  | null
  | bool (b : Bool)
  | num (n : Int)
  | str (s : String)
  | arr (elems : List Json)
  | obj (fields : List (String × Json))

/-- Object field lookup (`parsed.key`); `none` for a missing key and for
non-objects (JS `undefined`). -/
def Json.getField : Json → String → Option Json
  | Json.obj fs, k => (fs.find? fun f => f.1 = k).map fun f => f.2
  | _, _ => none

/-- JSON string of a player. -/
def playerJson : Player → Json
  | Player.X => Json.str "X"
  | Player.O => Json.str "O"

/-- JSON name of a throw. -/
def rpsChoiceName : RpsChoice → String
  | RpsChoice.rock => "rock"
  | RpsChoice.paper => "paper"
  | RpsChoice.scissors => "scissors"
  | RpsChoice.lizard => "lizard"
  | RpsChoice.spock => "spock"

/-- JSON name of a bot level. -/
def botLevelName : BotLevel → String
  | BotLevel.nolevel => "none"
  | BotLevel.easy => "easy"
  | BotLevel.smart => "smart"
  | BotLevel.hard => "hard"

/-- Serialise a picks object: `JSON.stringify` keeps only the players
whose throw is present (an `undefined` entry is dropped). -/
def serializePicks (p : Picks) : Json :=
  Json.obj
    ((match p.X with
      | some c => [("X", Json.str (rpsChoiceName c))]
      | none => []) ++
     (match p.O with
      | some c => [("O", Json.str (rpsChoiceName c))]
      | none => []))

/-- Serialise a `lastOutcome` value. -/
def outcomeJson : RpsOutcome → Json
  | RpsOutcome.winner p => playerJson p
  | RpsOutcome.tie => Json.str "tie"

/-- Serialise an optional value whose absence is JSON `null`. -/
def optJson {α : Type} (f : α → Json) : Option α → Json
  | some x => f x
  | none => Json.null

/-- Serialise one cell. -/
def serializeCell : Cell → Json
  | some p => playerJson p
  | none => Json.null

/-- Serialise a `winner` field. -/
def serializeWinner : Option MicroWin → Json
  | some (MicroWin.won p) => playerJson p
  | some MicroWin.CAT => Json.str "CAT"
  | none => Json.null

/-- Serialise a micro-tiebreak record; an absent `lastOutcome` key models
`JSON.stringify` dropping the `undefined` field. -/
def serializeRpsState (r : RpsState) : Json :=
  Json.obj
    ([("picks", serializePicks r.picks)] ++
     (match r.lastOutcome with
      | some o => [("lastOutcome", outcomeJson o)]
      | none => []))

/-- Serialise one micro board. -/
def serializeBoard (b : MicroBoardState) : Json :=
  Json.obj
    [("cells", Json.arr (b.cells.map serializeCell)),
     ("winner", serializeWinner b.winner),
     ("rps", optJson serializeRpsState b.rps)]

/-- Serialise the galaxy-tiebreak record. -/
def serializeFinalRps (f : FinalRpsState) : Json :=
  Json.obj
    ([("picks", serializePicks f.picks)] ++
     (match f.lastOutcome with
      | some o => [("lastOutcome", outcomeJson o)]
      | none => []) ++
     [("score", Json.obj [("X", Json.num f.score.X), ("O", Json.num f.score.O)]),
      ("rounds", Json.num f.rounds)])

/-- Serialisation, `serializeState(state)` (`JSON.stringify(state)` at the
tree level). -/
def serializeState (state : GameState) : Json :=
  Json.obj
    [("boards", Json.arr (state.boards.map serializeBoard)),
     ("macroWinner", optJson playerJson state.macroWinner),
     ("currentPlayer", playerJson state.currentPlayer),
     ("nextBoard", optJson (fun n : Nat => Json.num n) state.nextBoard),
     ("pendingRpsBoard", optJson (fun n : Nat => Json.num n) state.pendingRpsBoard),
     ("pendingFinalRps", Json.bool state.pendingFinalRps),
     ("finalRps", optJson serializeFinalRps state.finalRps),
     ("names", Json.obj [("X", Json.str state.names.X), ("O", Json.str state.names.O)]),
     ("bots",
        Json.obj [("X", Json.str (botLevelName state.bots.X)),
                  ("O", Json.str (botLevelName state.bots.O))])]

/-- Decode helper: the parsed object's field when the key is present,
otherwise the initial state's value — the `{ ...createInitialState(),
...parsed }` merge of the source.  A present field whose value does not
fit the target type has no counterpart in the typed `GameState` (the
source keeps the raw value, yielding an ill-typed state); the decoders
below map such values to a documented default. -/
def fieldOr {α : Type} (j : Json) (key : String) (dec : Json → α) (dflt : α) : α :=
  match j.getField key with
  | some v => dec v
  | none => dflt

/-- Decode a player string (default `X` for unrepresentable values). -/
def decodePlayer : Json → Player
  | Json.str "O" => Player.O
  | _ => Player.X

/-- Decode a nullable player. -/
def decodeOptPlayer : Json → Option Player
  | Json.str "X" => some Player.X
  | Json.str "O" => some Player.O
  | _ => none

/-- Decode a nullable board index. -/
def decodeOptNat : Json → Option Nat
  | Json.num n => if 0 ≤ n then some n.toNat else none
  | _ => none

/-- Decode a boolean (default `false`). -/
def decodeBool : Json → Bool
  | Json.bool b => b
  | _ => false

/-- Decode an integer (default `0`). -/
def decodeInt : Json → Int
  | Json.num n => n
  | _ => 0

/-- Decode a throw name. -/
def decodeChoice : Json → Option RpsChoice
  | Json.str "rock" => some RpsChoice.rock
  | Json.str "paper" => some RpsChoice.paper
  | Json.str "scissors" => some RpsChoice.scissors
  | Json.str "lizard" => some RpsChoice.lizard
  | Json.str "spock" => some RpsChoice.spock
  | _ => none

/-- Decode a picks object (a missing or unreadable entry is no throw). -/
def decodePicks (j : Json) : Picks :=
  ⟨(j.getField "X").bind decodeChoice, (j.getField "O").bind decodeChoice⟩

/-- Decode a `lastOutcome` value. -/
def decodeOutcome : Json → Option RpsOutcome
  | Json.str "tie" => some RpsOutcome.tie
  | Json.str "X" => some (RpsOutcome.winner Player.X)
  | Json.str "O" => some (RpsOutcome.winner Player.O)
  | _ => none

/-- Decode a `rps` field. -/
def decodeRps : Json → Option RpsState
  | Json.obj fs =>
      some
        { picks := fieldOr (Json.obj fs) "picks" decodePicks Picks.empty
          lastOutcome := fieldOr (Json.obj fs) "lastOutcome" decodeOutcome none }
  | _ => none

/-- Decode a single cell. -/
def decodeCell : Json → Cell
  | Json.str "X" => some Player.X
  | Json.str "O" => some Player.O
  | _ => none

/-- Decode a `winner` field. -/
def decodeWinner : Json → Option MicroWin
  | Json.str "X" => some (MicroWin.won Player.X)
  | Json.str "O" => some (MicroWin.won Player.O)
  | Json.str "CAT" => some MicroWin.CAT
  | _ => none

/-- Decode one micro board (a board object with no readable `cells` array
gets an empty cell list: the source would carry `undefined` there). -/
def decodeBoard (j : Json) : MicroBoardState :=
  { cells :=
      fieldOr j "cells"
        (fun v =>
          match v with
          | Json.arr xs => xs.map decodeCell
          | _ => [])
        []
    winner := fieldOr j "winner" decodeWinner none
    rps := fieldOr j "rps" decodeRps none }

/-- Decode a `finalRps` field. -/
def decodeFinalRps : Json → Option FinalRpsState
  | Json.obj fs =>
      some
        { picks := fieldOr (Json.obj fs) "picks" decodePicks Picks.empty
          lastOutcome := fieldOr (Json.obj fs) "lastOutcome" decodeOutcome none
          score :=
            fieldOr (Json.obj fs) "score"
              (fun v => ⟨fieldOr v "X" decodeInt 0, fieldOr v "O" decodeInt 0⟩) ⟨0, 0⟩
          rounds := fieldOr (Json.obj fs) "rounds" decodeInt 0 }
  | _ => none

/-- Decode a names / bots style record of strings. -/
def decodeNames (j : Json) : PlayerMap String :=
  ⟨fieldOr j "X" (fun v => match v with | Json.str s => s | _ => defaultNames.X) defaultNames.X,
   fieldOr j "O" (fun v => match v with | Json.str s => s | _ => defaultNames.O) defaultNames.O⟩

/-- Decode a bot level name (default `none`). -/
def decodeBotLevel : Json → BotLevel
  | Json.str "easy" => BotLevel.easy
  | Json.str "smart" => BotLevel.smart
  | Json.str "hard" => BotLevel.hard
  | _ => BotLevel.nolevel

/-- Deserialisation, `parseState(raw)`: a missing / unparseable input and
a state without exactly nine boards fall back to the initial state; any
other input is merged field-by-field over `createInitialState()`. -/
def parseState (raw : Option Json) : GameState :=
  match raw with
  | none => createInitialState
  | some j =>
      match j.getField "boards" with
      | some (Json.arr bs) =>
          if bs.length = 9 then
            { boards := bs.map decodeBoard
              macroWinner :=
                fieldOr j "macroWinner" decodeOptPlayer createInitialState.macroWinner
              currentPlayer :=
                fieldOr j "currentPlayer" decodePlayer createInitialState.currentPlayer
              nextBoard := fieldOr j "nextBoard" decodeOptNat createInitialState.nextBoard
              pendingRpsBoard :=
                fieldOr j "pendingRpsBoard" decodeOptNat createInitialState.pendingRpsBoard
              pendingFinalRps :=
                fieldOr j "pendingFinalRps" decodeBool createInitialState.pendingFinalRps
              finalRps := fieldOr j "finalRps" decodeFinalRps createInitialState.finalRps
              names := fieldOr j "names" decodeNames createInitialState.names
              bots :=
                fieldOr j "bots"
                  (fun v =>
                    ⟨fieldOr v "X" decodeBotLevel BotLevel.nolevel,
                     fieldOr v "O" decodeBotLevel BotLevel.nolevel⟩)
                  createInitialState.bots }
          else createInitialState
      | _ => createInitialState

/-! ## Helper lemmas about the legal-board computation -/

/-- Membership in the open-board index list. -/
theorem mem_openBoardIdxs {boards : List MicroBoardState} {i : Nat} :
    i ∈ openBoardIdxs boards ↔ ∃ bd, boards.get? i = some bd ∧ bd.winner = none := by
  unfold openBoardIdxs
  simp only [List.mem_map, List.mem_filter, List.mem_enum_iff_get?, decide_eq_true_eq]
  constructor
  · rintro ⟨⟨n, bd⟩, ⟨hget, hwin⟩, rfl⟩
    exact ⟨bd, hget, hwin⟩
  · rintro ⟨bd, hget, hwin⟩
    exact ⟨(i, bd), ⟨hget, hwin⟩, rfl⟩

/-- A board index accepted by `getAllowedBoards` implies: no tiebreak of
either kind is pending and the board exists and is open. -/
theorem mem_allowed_facts {s : GameState} {b : Nat} (h : b ∈ getAllowedBoards s) :
    s.pendingRpsBoard = none ∧ s.pendingFinalRps = false ∧
    ∃ bd, s.boards.get? b = some bd ∧ bd.winner = none := by
  unfold getAllowedBoards at h
  by_cases hg : s.pendingRpsBoard.isSome = true ∨ s.pendingFinalRps = true
  · simp [hg] at h
  · push_neg at hg
    obtain ⟨h1, h2⟩ := hg
    have hp : s.pendingRpsBoard = none := Option.not_isSome_iff_eq_none.mp h1
    have hf : s.pendingFinalRps = false := by
      cases hfin : s.pendingFinalRps
      · rfl
      · exact absurd hfin h2
    refine ⟨hp, hf, ?_⟩
    rw [if_neg (by simp [h1, hf])] at h
    cases hnb : s.nextBoard with
    | none =>
        rw [hnb] at h
        exact mem_openBoardIdxs.mp h
    | some t =>
        rw [hnb] at h
        dsimp only at h
        cases hgt : s.boards.get? t with
        | none =>
            rw [hgt] at h
            exact mem_openBoardIdxs.mp h
        | some target =>
            rw [hgt] at h
            dsimp only at h
            by_cases hw : target.winner = none
            · rw [if_pos hw] at h
              simp only [List.mem_singleton] at h
              subst h
              exact ⟨target, hgt, hw⟩
            · rw [if_neg hw] at h
              exact mem_openBoardIdxs.mp h

/-- Replacing a list entry by a board with the same cells leaves the
cells projection of the whole list unchanged. -/
theorem setPreservesMapCells :
    ∀ (l : List MicroBoardState) (i : Nat) (ub : MicroBoardState),
      (∀ bd, l.get? i = some bd → ub.cells = bd.cells) →
      (l.set i ub).map (fun b => b.cells) = l.map (fun b => b.cells) := by
  intro l
  induction l with
  | nil => intro i ub _; rfl
  | cons hd tl ih =>
      intro i ub hcells
      cases i with
      | zero =>
          simp only [List.set, List.map]
          rw [hcells hd rfl]
      | succ n =>
          simp only [List.set, List.map]
          rw [ih n ub (fun bd hbd => hcells bd hbd)]

/-! ## Characterisation of `playMove`

The following definitions name the values `playMove` computes on its
success path (they repeat the formulas of the branch so that theorems can
refer to individual fields); `playMove_spec` states that every call is
either one of the four rejections or the success record built from them. -/

/-- The addressed board (`state.boards[boardIndex]`). -/
def pmBoard (s : GameState) (b : Nat) : MicroBoardState :=
  (s.boards.get? b).getD createEmptyBoard

/-- Cells after placing the mover's mark. -/
def pmCells (s : GameState) (b c : Nat) : List Cell :=
  (pmBoard s b).cells.set c (some s.currentPlayer)

/-- The rewritten target board. -/
def pmUpdatedBoard (s : GameState) (b c : Nat) : MicroBoardState :=
  match detectWinner (pmCells s b c) with
  | some w => { pmBoard s b with cells := pmCells s b c, winner := some (MicroWin.won w) }
  | none =>
      if boardIsFull (pmCells s b c) then
        { cells := pmCells s b c, winner := some MicroWin.CAT
          rps := some { picks := Picks.empty, lastOutcome := none } }
      else { pmBoard s b with cells := pmCells s b c }

/-- The `pendingRpsBoard` value after the move. -/
def pmPendingRps (s : GameState) (b c : Nat) : Option Nat :=
  match detectWinner (pmCells s b c) with
  | some _ => s.pendingRpsBoard
  | none => if boardIsFull (pmCells s b c) then some b else s.pendingRpsBoard

/-- The board list after the move. -/
def pmBoards (s : GameState) (b c : Nat) : List MicroBoardState :=
  s.boards.set b (pmUpdatedBoard s b c)

/-- The recomputed macro winner. -/
def pmMacro (s : GameState) (b c : Nat) : Option Player :=
  determineMacroWinner (pmBoards s b c)

/-- The next-board constraint after the move. -/
def pmNext (s : GameState) (b c : Nat) : Option Nat :=
  match (pmBoards s b c).get? c with
  | some target => if target.winner ≠ none then none else some c
  | none => some c

/-- Whether every board is closed after the move. -/
def pmAllClosed (s : GameState) (b c : Nat) : Bool :=
  (pmBoards s b c).all fun bd => bd.winner ≠ none

/-- The `pendingFinalRps` flag after the move. -/
def pmPendingFinal (s : GameState) (b c : Nat) : Bool :=
  if pmMacro s b c = none ∧ pmAllClosed s b c = true ∧ pmPendingRps s b c = none then true
  else s.pendingFinalRps

/-- The `finalRps` record after the move. -/
def pmFinalRps (s : GameState) (b c : Nat) : Option FinalRpsState :=
  if pmPendingFinal s b c = true ∧ s.finalRps = none then some freshFinalRps else s.finalRps

/-- The full state produced by a successful move. -/
def pmSuccessState (s : GameState) (b c : Nat) : GameState :=
  { s with
    boards := pmBoards s b c
    macroWinner := pmMacro s b c
    currentPlayer := otherPlayer s.currentPlayer
    nextBoard := pmNext s b c
    pendingRpsBoard := pmPendingRps s b c
    pendingFinalRps := pmPendingFinal s b c
    finalRps := pmFinalRps s b c }

/-- Case analysis of `playMove`: the four rejection branches (each with
its guard and the unchanged state) or the success record. -/
theorem playMove_spec (s : GameState) (b c : Nat) :
    (s.pendingRpsBoard.isSome = true ∧
      playMove s b c = ⟨s, some "Finish Rock-Paper-Scissors first."⟩)
  ∨ (s.pendingRpsBoard.isSome = false ∧ b ∉ getAllowedBoards s ∧
      playMove s b c = ⟨s, some "You cannot play in that board right now."⟩)
  ∨ (s.pendingRpsBoard.isSome = false ∧ b ∈ getAllowedBoards s ∧ (pmBoard s b).winner ≠ none ∧
      playMove s b c = ⟨s, some "That board is already decided."⟩)
  ∨ (s.pendingRpsBoard.isSome = false ∧ b ∈ getAllowedBoards s ∧ (pmBoard s b).winner = none ∧
      (pmBoard s b).cells.get? c ≠ some none ∧
      playMove s b c = ⟨s, some "That square is already taken."⟩)
  ∨ (s.pendingRpsBoard.isSome = false ∧ b ∈ getAllowedBoards s ∧ (pmBoard s b).winner = none ∧
      (pmBoard s b).cells.get? c = some none ∧
      playMove s b c = ⟨pmSuccessState s b c, none⟩) := by
  by_cases h1 : s.pendingRpsBoard.isSome = true
  · exact Or.inl ⟨h1, by simp only [playMove, if_pos h1]⟩
  · have h1f : s.pendingRpsBoard.isSome = false := eq_false_of_ne_true h1
    by_cases h2 : b ∈ getAllowedBoards s
    · by_cases h3 : (pmBoard s b).winner = none
      · by_cases h4 : (pmBoard s b).cells.get? c = some none
        · refine Or.inr (Or.inr (Or.inr (Or.inr ⟨h1f, h2, h3, h4, ?_⟩)))
          simp only [pmBoard] at h3 h4
          simp only [playMove, h1f, Bool.false_eq_true, if_false]
          rw [if_neg (not_not.mpr h2), if_neg (not_not.mpr h3), if_neg (not_not.mpr h4)]
          rfl
        · refine Or.inr (Or.inr (Or.inr (Or.inl ⟨h1f, h2, h3, h4, ?_⟩)))
          simp only [pmBoard] at h3 h4
          simp only [playMove, h1f, Bool.false_eq_true, if_false]
          rw [if_neg (not_not.mpr h2), if_neg (not_not.mpr h3), if_pos h4]
      · refine Or.inr (Or.inr (Or.inl ⟨h1f, h2, h3, ?_⟩))
        simp only [pmBoard] at h3
        simp only [playMove, h1f, Bool.false_eq_true, if_false]
        rw [if_neg (not_not.mpr h2), if_pos h3]
    · refine Or.inr (Or.inl ⟨h1f, h2, ?_⟩)
      simp only [playMove, h1f, Bool.false_eq_true, if_false]
      rw [if_pos h2]

/-! ## Characterisation of `submitRpsChoice` -/

/-- Board rewrite of a tied micro round. -/
def microTieBoard (board : MicroBoardState) : MicroBoardState :=
  { board with rps := some { picks := Picks.empty, lastOutcome := some RpsOutcome.tie } }


/-- Board rewrite of a decisive micro round. -/
def microWinBoard (board : MicroBoardState) (picks : Picks) (w : Player) : MicroBoardState :=
  { board with
    winner := some (MicroWin.won w)
    rps := some { picks := picks, lastOutcome := some (RpsOutcome.winner w) } }


/-- Result record of a decisive micro round (the early-return branch of
the source, including the galaxy-arming re-check). -/
def microDecisiveResult (s : GameState) (bi : Nat) (board : MicroBoardState)
    (picks : Picks) (px po : RpsChoice) (outcome : RpsCmp) : RpsSubmitResult :=
  let winningPlayer := if outcome = RpsCmp.A then Player.X else Player.O
  let updatedBoard := microWinBoard board picks winningPlayer
  let resolved : ResolvedRps :=
    { boardIndex := bi
      winner := winningPlayer
      picks := ⟨px, po⟩
      verb := if outcome = RpsCmp.A then rpsVerb px po else rpsVerb po px }
  let updatedBoards := s.boards.set bi updatedBoard
  let macroWinner := determineMacroWinner updatedBoards
  if macroWinner = none ∧ updatedBoards.all (fun b => b.winner ≠ none) then
    { state :=
        { s with
          boards := updatedBoards
          pendingRpsBoard := none
          macroWinner
          currentPlayer := s.currentPlayer
          pendingFinalRps := true
          finalRps := some (s.finalRps.getD freshFinalRps) }
      error := none
      resolvedRps := some resolved }
  else
    { state :=
        { s with
          boards := updatedBoards
          pendingRpsBoard := none
          macroWinner
          currentPlayer := s.currentPlayer }
      error := none
      resolvedRps := some resolved }


/-- Case analysis of `submitRpsChoice`: rejection, half-complete round,
tied round, or decisive round. -/
theorem submitRpsChoice_spec (s : GameState) (p : Player) (ch : RpsChoice) :
    (s.pendingRpsBoard = none ∧ submitRpsChoice s p ch = ⟨s, some "No RPS pending.", none⟩)
  ∨ (∃ bi board existing picks, s.pendingRpsBoard = some bi ∧
      board = (s.boards.get? bi).getD createEmptyBoard ∧
      existing = board.rps.getD { picks := Picks.empty, lastOutcome := none } ∧
      picks = existing.picks.set p (some ch) ∧
      (((picks.X = none ∨ picks.O = none) ∧
          submitRpsChoice s p ch =
            microSubmitTail s bi { board with rps := some { existing with picks := picks } }
              (otherPlayer p))
       ∨ (∃ px po, picks.X = some px ∧ picks.O = some po ∧
           ((compareRps px po = RpsCmp.Tie ∧
               submitRpsChoice s p ch = microSubmitTail s bi (microTieBoard board) (otherPlayer p))
            ∨ (compareRps px po ≠ RpsCmp.Tie ∧
               submitRpsChoice s p ch =
                 microDecisiveResult s bi board picks px po (compareRps px po)))))) := by
  cases hp : s.pendingRpsBoard with
  | none =>
      refine Or.inl ⟨rfl, ?_⟩
      unfold submitRpsChoice
      rw [hp]
  | some bi =>
      refine Or.inr ⟨bi, _, _, _, rfl, rfl, rfl, rfl, ?_⟩
      simp only [submitRpsChoice, hp]
      split
      next px po hX hO =>
        refine Or.inr ⟨px, po, hX, hO, ?_⟩
        split
        next htie => exact Or.inl ⟨htie, rfl⟩
        next outcome hne =>
          exact Or.inr ⟨hne, rfl⟩
      next hcatch =>
        refine Or.inl ⟨?_, rfl⟩
        rcases hX : (PlayerMap.set
            (((s.boards.get? bi).getD createEmptyBoard).rps.getD
              { picks := Picks.empty, lastOutcome := none }).picks p (some ch)).X with _ | px
        · exact Or.inl rfl
        · rcases hO : (PlayerMap.set
              (((s.boards.get? bi).getD createEmptyBoard).rps.getD
                { picks := Picks.empty, lastOutcome := none }).picks p (some ch)).O with _ | po
          · exact Or.inr rfl
          · exact absurd (hcatch px po hX hO) not_false

/-- The fall-through tail never reports an error. -/
theorem microSubmitTail_error (s : GameState) (bi : Nat) (ub : MicroBoardState) (cp : Player) :
    (microSubmitTail s bi ub cp).error = none := by
  simp only [microSubmitTail]
  split <;> rfl

/-- The fall-through tail on a still-pending board: the arming branch is
unreachable and only `boards` and `currentPlayer` change. -/
theorem microSubmitTail_of_pending (s : GameState) (bi j : Nat) (ub : MicroBoardState)
    (cp : Player) (h : s.pendingRpsBoard = some j) :
    microSubmitTail s bi ub cp =
      ⟨{ s with boards := s.boards.set bi ub, currentPlayer := cp }, none, none⟩ := by
  unfold microSubmitTail
  rw [if_neg]
  · rintro ⟨-, h2, -⟩
    rw [h] at h2
    exact Option.noConfusion h2

/-! ## Characterisation of `submitFinalRpsChoice` -/

/-- Result record of a decisive galaxy round, as the source computes it:
the end-of-match test reads the already incremented score and adds one
more, so it is `oldScore + 2 ≥ 2` — true from the very first decisive
round. -/
def finalDecisiveResult (s : GameState) (p : Player) (fr : FinalRpsState)
    (outcome : RpsCmp) : FinalSubmitResult :=
  let winningPlayer := if outcome = RpsCmp.A then Player.X else Player.O
  let finalRps : FinalRpsState :=
    { picks := Picks.empty
      lastOutcome := some (RpsOutcome.winner winningPlayer)
      score := fr.score.set winningPlayer (fr.score.get winningPlayer + 1)
      rounds := fr.rounds + 1 }
  if finalRps.score.get winningPlayer + 1 ≥ 2 then
    { state :=
        { s with
          finalRps := some finalRps
          pendingFinalRps := false
          macroWinner := some winningPlayer
          currentPlayer := otherPlayer p }
      error := none
      finalWinner := some winningPlayer }
  else
    { state :=
        { s with
          finalRps := some finalRps
          currentPlayer := otherPlayer p }
      error := none
      finalWinner := none }

/-- Case analysis of `submitFinalRpsChoice`: rejection, half-complete
round, tied round, or decisive round. -/
theorem submitFinalRpsChoice_spec (s : GameState) (p : Player) (ch : RpsChoice) :
    ((s.pendingFinalRps = false ∨ s.finalRps = none) ∧
       submitFinalRpsChoice s p ch = ⟨s, some "No final RPSLS pending.", none⟩)
  ∨ (∃ fr picks, s.pendingFinalRps = true ∧ s.finalRps = some fr ∧
      picks = fr.picks.set p (some ch) ∧
      (((picks.X = none ∨ picks.O = none) ∧
          submitFinalRpsChoice s p ch =
            ⟨{ s with
                finalRps := some { fr with picks := picks }
                currentPlayer := otherPlayer p }, none, none⟩)
       ∨ (∃ px po, picks.X = some px ∧ picks.O = some po ∧
           ((compareRps px po = RpsCmp.Tie ∧
               submitFinalRpsChoice s p ch =
                 ⟨{ s with
                     finalRps := some
                       { fr with picks := Picks.empty, lastOutcome := some RpsOutcome.tie }
                     currentPlayer := otherPlayer p }, none, none⟩)
            ∨ (compareRps px po ≠ RpsCmp.Tie ∧
               submitFinalRpsChoice s p ch =
                 finalDecisiveResult s p fr (compareRps px po)))))) := by
  cases hf : s.finalRps with
  | none =>
      refine Or.inl ⟨Or.inr rfl, ?_⟩
      unfold submitFinalRpsChoice
      rw [hf]
  | some fr =>
      cases hpf : s.pendingFinalRps with
      | false =>
          refine Or.inl ⟨Or.inl rfl, ?_⟩
          simp only [submitFinalRpsChoice, hf, hpf]
          rfl
      | true =>
          refine Or.inr ⟨fr, _, rfl, rfl, rfl, ?_⟩
          simp only [submitFinalRpsChoice, hf, hpf, eq_self_iff_true, not_true, if_false]
          split
          next px po hX hO =>
            refine Or.inr ⟨px, po, hX, hO, ?_⟩
            split
            next htie => exact Or.inl ⟨htie, rfl⟩
            next outcome hne =>
              refine Or.inr ⟨hne, ?_⟩
              simp only [finalDecisiveResult, hpf]
          next hcatch =>
            refine Or.inl ⟨?_, rfl⟩
            rcases hX : (fr.picks.set p (some ch)).X with _ | px
            · exact Or.inl rfl
            · rcases hO : (fr.picks.set p (some ch)).O with _ | po
              · exact Or.inr rfl
              · exact absurd (hcatch px po hX hO) not_false

/-- The decisive micro result never reports an error. -/
theorem microDecisiveResult_error (s : GameState) (bi : Nat) (board : MicroBoardState)
    (picks : Picks) (px po : RpsChoice) (oc : RpsCmp) :
    (microDecisiveResult s bi board picks px po oc).error = none := by
  simp only [microDecisiveResult]
  split <;> split <;> rfl

/-- Board list written by the fall-through tail. -/
theorem microSubmitTail_boards (s : GameState) (bi : Nat) (ub : MicroBoardState) (cp : Player) :
    (microSubmitTail s bi ub cp).state.boards = s.boards.set bi ub := by
  simp only [microSubmitTail]
  split <;> rfl

/-- Board list written by a decisive micro round. -/
theorem microDecisiveResult_boards (s : GameState) (bi : Nat) (board : MicroBoardState)
    (picks : Picks) (px po : RpsChoice) (oc : RpsCmp) :
    (microDecisiveResult s bi board picks px po oc).state.boards =
      s.boards.set bi (microWinBoard board picks (if oc = RpsCmp.A then Player.X else Player.O)) := by
  simp only [microDecisiveResult]
  split <;> split <;> simp_all

/-- The decisive galaxy result never reports an error. -/
theorem finalDecisiveResult_error (s : GameState) (p : Player) (fr : FinalRpsState)
    (oc : RpsCmp) : (finalDecisiveResult s p fr oc).error = none := by
  simp only [finalDecisiveResult]
  split <;> split <;> rfl

/-- C5: every precondition failure of a mutating operation returns the
prior state unchanged together with an error string, and there is no
partial-failure state: a call either reports no error or hands back the
input state.  The listed guards (tiebreak pending, board not currently
legal, board closed, cell occupied, no micro / final throw pending) each
force the error. -/
theorem C5_failures_return_unchanged_state :
    (∀ s b c,
      ((playMove s b c).error.isSome = true → (playMove s b c).state = s) ∧
      (s.pendingRpsBoard.isSome = true → (playMove s b c).error.isSome = true) ∧
      (b ∉ getAllowedBoards s → (playMove s b c).error.isSome = true) ∧
      (∀ bd, s.boards.get? b = some bd → bd.winner ≠ none →
        (playMove s b c).error.isSome = true) ∧
      (∀ bd pl, s.boards.get? b = some bd → bd.cells.get? c = some (some pl) →
        (playMove s b c).error.isSome = true)) ∧
    (∀ s p ch,
      ((submitRpsChoice s p ch).error.isSome = true ↔ s.pendingRpsBoard = none) ∧
      ((submitRpsChoice s p ch).error.isSome = true → (submitRpsChoice s p ch).state = s)) ∧
    (∀ s p ch,
      ((submitFinalRpsChoice s p ch).error.isSome = true ↔
        (s.pendingFinalRps = false ∨ s.finalRps = none)) ∧
      ((submitFinalRpsChoice s p ch).error.isSome = true →
        (submitFinalRpsChoice s p ch).state = s)) := by
  refine ⟨fun s b c => ?_, fun s p ch => ?_, fun s p ch => ?_⟩
  · rcases playMove_spec s b c with ⟨h1, heq⟩ | ⟨h1, h2, heq⟩ | ⟨h1, h2, h3, heq⟩ |
      ⟨h1, h2, h3, h4, heq⟩ | ⟨h1, h2, h3, h4, heq⟩ <;> rw [heq]
    · exact ⟨fun _ => rfl, fun _ => rfl, fun _ => rfl, fun _ _ _ => rfl, fun _ _ _ _ => rfl⟩
    · exact ⟨fun _ => rfl, fun _ => rfl, fun _ => rfl, fun _ _ _ => rfl, fun _ _ _ _ => rfl⟩
    · exact ⟨fun _ => rfl, fun _ => rfl, fun _ => rfl, fun _ _ _ => rfl, fun _ _ _ _ => rfl⟩
    · exact ⟨fun _ => rfl, fun _ => rfl, fun _ => rfl, fun _ _ _ => rfl, fun _ _ _ _ => rfl⟩
    · refine ⟨fun h => by simp at h, fun h => by rw [h1] at h; exact Bool.noConfusion h,
        fun h => absurd h2 h, fun bd hget hwin => ?_, fun bd pl hget hcell => ?_⟩
      · exact absurd (by rw [pmBoard, hget] at h3; exact h3) hwin
      · rw [pmBoard, hget] at h4
        simp only [Option.getD_some] at h4
        rw [hcell] at h4
        exact Option.noConfusion (Option.some.inj h4)
  · rcases submitRpsChoice_spec s p ch with ⟨hp, heq⟩ |
      ⟨bi, board, existing, picks, hp, hb, he, hpk, hrest⟩
    · rw [heq]
      exact ⟨⟨fun _ => hp, fun _ => rfl⟩, fun _ => rfl⟩
    · have herr : (submitRpsChoice s p ch).error = none := by
        rcases hrest with ⟨-, heq⟩ | ⟨px, po, -, -, ⟨-, heq⟩ | ⟨-, heq⟩⟩ <;> rw [heq] <;>
          first
            | exact microSubmitTail_error _ _ _ _
            | exact microDecisiveResult_error _ _ _ _ _ _ _
      rw [herr]
      refine ⟨⟨fun h => Bool.noConfusion h, fun h => ?_⟩, fun h => Bool.noConfusion h⟩
      rw [h] at hp
      exact Option.noConfusion hp
  · rcases submitFinalRpsChoice_spec s p ch with ⟨hc, heq⟩ |
      ⟨fr, picks, hpf, hf, hpk, hrest⟩
    · rw [heq]
      exact ⟨⟨fun _ => hc, fun _ => rfl⟩, fun _ => rfl⟩
    · have herr : (submitFinalRpsChoice s p ch).error = none := by
        rcases hrest with ⟨-, heq⟩ | ⟨px, po, -, -, ⟨-, heq⟩ | ⟨-, heq⟩⟩ <;> rw [heq] <;>
          first
            | rfl
            | exact finalDecisiveResult_error _ _ _ _
      rw [herr]
      refine ⟨⟨fun h => Bool.noConfusion h, fun h => ?_⟩, fun h => Bool.noConfusion h⟩
      rcases h with h | h
      · rw [hpf] at h
        exact Bool.noConfusion h
      · rw [hf] at h
        exact Option.noConfusion h

/-- Witness for C5: playing while a micro tiebreak is pending is rejected
with the state unchanged. -/
theorem C5_failures_return_unchanged_state_witness :
    (playMove { createInitialState with pendingRpsBoard := some 0 } 0 0).error.isSome = true ∧
    (playMove { createInitialState with pendingRpsBoard := some 0 } 0 0).state =
      { createInitialState with pendingRpsBoard := some 0 } := by
  have h := C5_failures_return_unchanged_state.1
    { createInitialState with pendingRpsBoard := some 0 } 0 0
  have herr := h.2.1 (by decide)
  exact ⟨herr, h.1 herr⟩

/-- C6: a closed micro board's cells are never mutated again: `playMove`
into it is rejected (and any move leaves it untouched), the micro-throw
submission rewrites only `winner` / `rps` of the pending board, and the
final-throw submission does not touch the boards at all. -/
theorem C6_closed_boards_never_mutated :
    (∀ s b c i bd, s.boards.get? i = some bd → bd.winner ≠ none →
      (((playMove s b c).state.boards.get? i).map fun x => x.cells) = some bd.cells) ∧
    (∀ s p ch, ((submitRpsChoice s p ch).state.boards.map fun x => x.cells) =
        s.boards.map fun x => x.cells) ∧
    (∀ s p ch, (submitFinalRpsChoice s p ch).state.boards = s.boards) := by
  refine ⟨fun s b c i bd hget hwin => ?_, fun s p ch => ?_, fun s p ch => ?_⟩
  · rcases playMove_spec s b c with ⟨h1, heq⟩ | ⟨h1, h2, heq⟩ | ⟨h1, h2, h3, heq⟩ |
      ⟨h1, h2, h3, h4, heq⟩ | ⟨h1, h2, h3, h4, heq⟩ <;> rw [heq] <;>
      try (rw [hget]; rfl)
    -- success case: the played board is open, so it cannot be board `i`
    obtain ⟨-, -, bd', hget', hwin'⟩ := mem_allowed_facts h2
    by_cases hib : b = i
    · subst hib
      rw [hget] at hget'
      obtain rfl := Option.some.inj hget'
      exact absurd hwin' hwin
    · show (((s.boards.set b (pmUpdatedBoard s b c)).get? i).map fun x => x.cells) = some bd.cells
      rw [List.get?_set_ne _ _ hib, hget]
      rfl
  · rcases submitRpsChoice_spec s p ch with ⟨hp, heq⟩ |
      ⟨bi, board, existing, picks, hp, hb, he, hpk, hrest⟩
    · rw [heq]
    · have hcells : ∀ ub : MicroBoardState, ub.cells = board.cells →
          ((s.boards.set bi ub).map fun x => x.cells) = s.boards.map fun x => x.cells := by
        intro ub hub
        refine setPreservesMapCells _ _ _ fun bd hbd => ?_
        rw [hub, hb, hbd]
        rfl
      rcases hrest with ⟨-, heq⟩ | ⟨px, po, -, -, ⟨-, heq⟩ | ⟨-, heq⟩⟩ <;> rw [heq] <;>
        first
          | (rw [microSubmitTail_boards]; exact hcells _ rfl)
          | (rw [microDecisiveResult_boards]; exact hcells _ rfl)
  · rcases submitFinalRpsChoice_spec s p ch with ⟨hc, heq⟩ |
      ⟨fr, picks, hpf, hf, hpk, hrest⟩
    · rw [heq]
    · rcases hrest with ⟨-, heq⟩ | ⟨px, po, -, -, ⟨-, heq⟩ | ⟨-, heq⟩⟩ <;> rw [heq] <;>
        first
          | rfl
          | (simp only [finalDecisiveResult]; split <;> split <;> rfl)

/-- Witness for C6: after any call on a state whose board 0 is closed,
board 0 still holds the same cells. -/
theorem C6_closed_boards_never_mutated_witness :
    ((((playMove
        { createInitialState with
          boards := createInitialState.boards.set 0
            { createEmptyBoard with winner := some (MicroWin.won Player.X) } } 0 4).state.boards.get?
          0).map fun x => x.cells) = some createEmptyBoard.cells) := by
  have h := C6_closed_boards_never_mutated.1
    { createInitialState with
      boards := createInitialState.boards.set 0
        { createEmptyBoard with winner := some (MicroWin.won Player.X) } } 0 4 0
    { createEmptyBoard with winner := some (MicroWin.won Player.X) }
    (by decide) (by decide)
  exact h

/-- The rps record stored on the decided board after a decisive micro
round: the submitted picks are retained. -/
theorem microDecisiveResult_board_rps (s : GameState) (bi : Nat) (board : MicroBoardState)
    (picks : Picks) (px po : RpsChoice) (oc : RpsCmp) (hlt : bi < s.boards.length) :
    (((microDecisiveResult s bi board picks px po oc).state.boards.get? bi).bind
        fun b => b.rps) =
      some { picks := picks
             lastOutcome := some (RpsOutcome.winner
               (if oc = RpsCmp.A then Player.X else Player.O)) } := by
  rw [microDecisiveResult_boards,
    List.get?_set_eq_of_lt _ (by simpa using hlt)]
  rfl

/-- A state with the galaxy tiebreak armed at score 0-0. -/
def galaxyArmedState : GameState :=
  { createInitialState with pendingFinalRps := true, finalRps := some freshFinalRps }

/-- C2: evaluation of the code at the failing input.  From score 0-0 a
single decisive round (X throws rock, O throws scissors) already ends the
galaxy tiebreak: the call reports `finalWinner = X`, sets `macroWinner`,
clears `pendingFinalRps`, and leaves the stored score at 1-0 after one
round — the source tests `score[w] + 1 >= 2` against the already
incremented score, so the tiebreak can never reach a score of 2. -/
theorem C2_first_decisive_round_ends_tiebreak :
    (submitFinalRpsChoice galaxyArmedState Player.X RpsChoice.rock).error = none ∧
    (submitFinalRpsChoice galaxyArmedState Player.X RpsChoice.rock).finalWinner = none ∧
    (submitFinalRpsChoice
        (submitFinalRpsChoice galaxyArmedState Player.X RpsChoice.rock).state
        Player.O RpsChoice.scissors).error = none ∧
    (submitFinalRpsChoice
        (submitFinalRpsChoice galaxyArmedState Player.X RpsChoice.rock).state
        Player.O RpsChoice.scissors).finalWinner = some Player.X ∧
    (submitFinalRpsChoice
        (submitFinalRpsChoice galaxyArmedState Player.X RpsChoice.rock).state
        Player.O RpsChoice.scissors).state.macroWinner = some Player.X ∧
    (submitFinalRpsChoice
        (submitFinalRpsChoice galaxyArmedState Player.X RpsChoice.rock).state
        Player.O RpsChoice.scissors).state.pendingFinalRps = false ∧
    (submitFinalRpsChoice
        (submitFinalRpsChoice galaxyArmedState Player.X RpsChoice.rock).state
        Player.O RpsChoice.scissors).state.finalRps =
      some { picks := Picks.empty
             lastOutcome := some (RpsOutcome.winner Player.X)
             score := ⟨1, 0⟩
             rounds := 1 } := by
  decide

/-- A CAT board whose micro tiebreak has X's throw (rock) recorded. -/
def catBoardWithPick : MicroBoardState :=
  { createEmptyBoard with
    winner := some MicroWin.CAT
    rps := some { picks := ⟨some RpsChoice.rock, none⟩, lastOutcome := none } }

/-- A state whose board 0 is the pending micro-tiebreak board. -/
def microPendingState : GameState :=
  { createInitialState with
    boards := createInitialState.boards.set 0 catBoardWithPick
    pendingRpsBoard := some 0 }

/-- Counterexample to C7: a decisive micro round (O answers X's rock with
scissors, so X wins the board) does not empty the board's `picks`: both
throws stay recorded in the closed board's rps state. -/
theorem C7_counterexample_decisive_round_keeps_picks :
    (submitRpsChoice microPendingState Player.O RpsChoice.scissors).error = none ∧
    (submitRpsChoice microPendingState Player.O RpsChoice.scissors).resolvedRps.isSome = true ∧
    ((((submitRpsChoice microPendingState Player.O RpsChoice.scissors).state.boards.get?
          0).bind fun b => b.rps).map fun x => x.picks) =
      some ⟨some RpsChoice.rock, some RpsChoice.scissors⟩ ∧
    (⟨some RpsChoice.rock, some RpsChoice.scissors⟩ : Picks) ≠ Picks.empty := by
  decide

/-- C7 (amended): after a completed tied round the picks are emptied
(`lastOutcome` becomes tie), the same board remains `pendingRpsBoard`,
and beyond that board's rps record only `currentPlayer` changes; after a
completed decisive round the winning picks are retained (not emptied) in
the closed board's rps record. -/
theorem C7_round_end_picks (s : GameState) (p : Player) (ch : RpsChoice) (bi : Nat)
    (board : MicroBoardState) (px po : RpsChoice)
    (hp : s.pendingRpsBoard = some bi)
    (hbd : s.boards.get? bi = some board)
    (hX : ((board.rps.getD { picks := Picks.empty, lastOutcome := none }).picks.set p
        (some ch)).X = some px)
    (hO : ((board.rps.getD { picks := Picks.empty, lastOutcome := none }).picks.set p
        (some ch)).O = some po) :
    (compareRps px po = RpsCmp.Tie →
      submitRpsChoice s p ch =
        ⟨{ s with
            boards := s.boards.set bi (microTieBoard board)
            currentPlayer := otherPlayer p }, none, none⟩) ∧
    (compareRps px po ≠ RpsCmp.Tie →
      (((submitRpsChoice s p ch).state.boards.get? bi).bind fun b => b.rps) =
        some { picks := (board.rps.getD { picks := Picks.empty, lastOutcome := none }).picks.set p
                 (some ch)
               lastOutcome := some (RpsOutcome.winner
                 (if compareRps px po = RpsCmp.A then Player.X else Player.O)) }) := by
  rcases submitRpsChoice_spec s p ch with ⟨hpn, -⟩ |
    ⟨bi', board', existing, picks, hp', hb, he, hpk, hrest⟩
  · rw [hp] at hpn
    exact Option.noConfusion hpn
  · rw [hp] at hp'
    obtain rfl := Option.some.inj hp'
    rw [hbd] at hb
    simp only [Option.getD_some] at hb
    subst board'
    subst he
    subst hpk
    rcases hrest with ⟨hnone, -⟩ | ⟨px', po', hX', hO', hrest2⟩
    · rcases hnone with hn | hn
      · rw [hX] at hn
        exact Option.noConfusion hn
      · rw [hO] at hn
        exact Option.noConfusion hn
    · rw [hX] at hX'
      rw [hO] at hO'
      obtain rfl := Option.some.inj hX'
      obtain rfl := Option.some.inj hO'
      rcases hrest2 with ⟨htie, heq⟩ | ⟨hne, heq⟩
      · refine ⟨fun _ => ?_, fun hne => absurd htie hne⟩
        rw [heq, microSubmitTail_of_pending s bi bi _ _ hp]
      · refine ⟨fun htie => absurd htie hne, fun _ => ?_⟩
        rw [heq]
        exact microDecisiveResult_board_rps s bi board _ px po _
          (List.get?_eq_some.mp hbd).1

/-- Witness for C7: O answering X's rock with rock is a tied round; the
picks are emptied and board 0 stays pending. -/
theorem C7_round_end_picks_witness :
    submitRpsChoice microPendingState Player.O RpsChoice.rock =
      ⟨{ microPendingState with
          boards := microPendingState.boards.set 0 (microTieBoard catBoardWithPick)
          currentPlayer := otherPlayer Player.O }, none, none⟩ :=
  (C7_round_end_picks microPendingState Player.O RpsChoice.rock 0 catBoardWithPick
    RpsChoice.rock RpsChoice.rock (by decide) (by decide) (by decide) (by decide)).1 (by decide)

/-- The fall-through tail hands the turn to the passed player. -/
theorem microSubmitTail_currentPlayer (s : GameState) (bi : Nat) (ub : MicroBoardState)
    (cp : Player) : (microSubmitTail s bi ub cp).state.currentPlayer = cp := by
  simp only [microSubmitTail]
  split <;> rfl

/-- A decisive micro round keeps the pre-call `currentPlayer`. -/
theorem microDecisiveResult_currentPlayer (s : GameState) (bi : Nat)
    (board : MicroBoardState) (picks : Picks) (px po : RpsChoice) (oc : RpsCmp) :
    (microDecisiveResult s bi board picks px po oc).state.currentPlayer = s.currentPlayer := by
  simp only [microDecisiveResult]
  split <;> split <;> rfl

/-- The pending state with O to move (O is also the submitter below). -/
def microPendingStateO : GameState :=
  { microPendingState with currentPlayer := Player.O }

/-- Counterexample to C8: O (who is also `currentPlayer`) submits the
decisive throw; the resulting `currentPlayer` is still O, not the other
player relative to the submitter. -/
theorem C8_counterexample_decisive_round_keeps_turn :
    (submitRpsChoice microPendingStateO Player.O RpsChoice.scissors).error = none ∧
    (submitRpsChoice microPendingStateO Player.O RpsChoice.scissors).resolvedRps.isSome =
      true ∧
    (submitRpsChoice microPendingStateO Player.O RpsChoice.scissors).state.currentPlayer =
      Player.O ∧
    otherPlayer Player.O ≠ Player.O := by
  decide

/-- C8 (amended): a successful micro-throw submission flips
`currentPlayer` to the other player relative to the submitter on a
half-complete round and on a tied round; on a decisive round it instead
restores the pre-call `state.currentPlayer`. -/
theorem C8_turn_alternation (s : GameState) (p : Player) (ch : RpsChoice) (bi : Nat)
    (hp : s.pendingRpsBoard = some bi) :
    (((((s.boards.get? bi).getD createEmptyBoard).rps.getD
          { picks := Picks.empty, lastOutcome := none }).picks.set p (some ch)).X = none ∨
     ((((s.boards.get? bi).getD createEmptyBoard).rps.getD
          { picks := Picks.empty, lastOutcome := none }).picks.set p (some ch)).O = none →
      (submitRpsChoice s p ch).state.currentPlayer = otherPlayer p) ∧
    (∀ px po,
      ((((s.boards.get? bi).getD createEmptyBoard).rps.getD
          { picks := Picks.empty, lastOutcome := none }).picks.set p (some ch)).X = some px →
      ((((s.boards.get? bi).getD createEmptyBoard).rps.getD
          { picks := Picks.empty, lastOutcome := none }).picks.set p (some ch)).O = some po →
      ((compareRps px po = RpsCmp.Tie →
          (submitRpsChoice s p ch).state.currentPlayer = otherPlayer p) ∧
       (compareRps px po ≠ RpsCmp.Tie →
          (submitRpsChoice s p ch).state.currentPlayer = s.currentPlayer))) := by
  rcases submitRpsChoice_spec s p ch with ⟨hpn, -⟩ |
    ⟨bi', board', existing, picks, hp', hb, he, hpk, hrest⟩
  · rw [hp] at hpn
    exact Option.noConfusion hpn
  · rw [hp] at hp'
    obtain rfl := Option.some.inj hp'
    subst board'
    subst he
    subst hpk
    rcases hrest with ⟨hnone, heq⟩ | ⟨px', po', hX', hO', hrest2⟩
    · refine ⟨fun _ => ?_, fun px po hX hO => ?_⟩
      · rw [heq, microSubmitTail_currentPlayer]
      · rcases hnone with hn | hn
        · rw [hX] at hn
          exact Option.noConfusion hn
        · rw [hO] at hn
          exact Option.noConfusion hn
    · refine ⟨fun hnone => ?_, fun px po hX hO => ?_⟩
      · rcases hnone with hn | hn
        · rw [hX'] at hn
          exact Option.noConfusion hn
        · rw [hO'] at hn
          exact Option.noConfusion hn
      · rw [hX] at hX'
        rw [hO] at hO'
        obtain rfl := Option.some.inj hX'
        obtain rfl := Option.some.inj hO'
        rcases hrest2 with ⟨htie, heq⟩ | ⟨hne, heq⟩
        · exact ⟨fun _ => by rw [heq, microSubmitTail_currentPlayer],
            fun hne => absurd htie hne⟩
        · exact ⟨fun htie => absurd htie hne,
            fun _ => by rw [heq, microDecisiveResult_currentPlayer]⟩

/-- Witness for C8: the decisive round of the counterexample state, via
the amended theorem. -/
theorem C8_turn_alternation_witness :
    (submitRpsChoice microPendingStateO Player.O RpsChoice.scissors).state.currentPlayer =
      microPendingStateO.currentPlayer :=
  ((C8_turn_alternation microPendingStateO Player.O RpsChoice.scissors 0 (by decide)).2
    RpsChoice.rock RpsChoice.scissors (by decide) (by decide)).2 (by decide)

/-! ## Reachability and the tiebreak-mode invariant (C1) -/

/-- One engine call: a move or a tiebreak throw (failed calls leave the
state unchanged, so arbitrary arguments are allowed). -/
inductive GameAction where
  | move (b c : Nat)
  | microThrow (p : Player) (ch : RpsChoice)
  | finalThrow (p : Player) (ch : RpsChoice)

/-- The state an action leads to. -/
def applyAction (s : GameState) : GameAction → GameState
  | GameAction.move b c => (playMove s b c).state
  | GameAction.microThrow p ch => (submitRpsChoice s p ch).state
  | GameAction.finalThrow p ch => (submitFinalRpsChoice s p ch).state

/-- States reachable from `createInitialState()` by engine calls. -/
inductive Reachable : GameState → Prop where
  | init : Reachable createInitialState
  | step (s : GameState) (a : GameAction) : Reachable s → Reachable (applyAction s a)

/-- Replay a list of actions from the initial state. -/
def runActions (acts : List GameAction) : GameState :=
  acts.foldl applyAction createInitialState

/-- Folding actions preserves reachability. -/
theorem reachable_foldl (acts : List GameAction) (s : GameState) (h : Reachable s) :
    Reachable (acts.foldl applyAction s) := by
  induction acts generalizing s with
  | nil => exact h
  | cons a rest ih => exact ih _ (Reachable.step s a h)

/-- Every replayed trace ends in a reachable state. -/
theorem reachable_runActions (acts : List GameAction) : Reachable (runActions acts) :=
  reachable_foldl acts _ Reachable.init

/-- The two mode exclusivities that do hold: a pending micro tiebreak
excludes a pending galaxy tiebreak, and a pending galaxy tiebreak
excludes a macro winner. -/
def ModesInv (s : GameState) : Prop :=
  (s.pendingRpsBoard = none ∨ s.pendingFinalRps = false) ∧
  (s.pendingFinalRps = false ∨ s.macroWinner = none)

/-- `playMove` preserves the mode invariant. -/
theorem playMove_modesInv (s : GameState) (b c : Nat) (h : ModesInv s) :
    ModesInv (playMove s b c).state := by
  rcases playMove_spec s b c with ⟨-, heq⟩ | ⟨-, -, heq⟩ | ⟨-, -, -, heq⟩ |
    ⟨-, -, -, -, heq⟩ | ⟨-, hall, -, -, heq⟩ <;> rw [heq] <;> try exact h
  obtain ⟨-, hpf, -⟩ := mem_allowed_facts hall
  show ModesInv (pmSuccessState s b c)
  by_cases hc : pmMacro s b c = none ∧ pmAllClosed s b c = true ∧ pmPendingRps s b c = none
  · constructor
    · exact Or.inl hc.2.2
    · show pmPendingFinal s b c = false ∨ pmMacro s b c = none
      exact Or.inr hc.1
  · have hpf' : pmPendingFinal s b c = s.pendingFinalRps := by
      rw [pmPendingFinal, if_neg hc]
    constructor
    · exact Or.inr (by rw [show (pmSuccessState s b c).pendingFinalRps = pmPendingFinal s b c
        from rfl, hpf', hpf])
    · exact Or.inl (by rw [show (pmSuccessState s b c).pendingFinalRps = pmPendingFinal s b c
        from rfl, hpf', hpf])

/-- A decisive micro round preserves the mode invariant whenever the
galaxy tiebreak was not already pending. -/
theorem microDecisiveResult_modesInv (s : GameState) (bi : Nat) (board : MicroBoardState)
    (picks : Picks) (px po : RpsChoice) (oc : RpsCmp) (hpf : s.pendingFinalRps = false) :
    ModesInv (microDecisiveResult s bi board picks px po oc).state := by
  simp only [microDecisiveResult]
  split
  · split
    next hcond => exact ⟨Or.inl rfl, Or.inr hcond.1⟩
    next => exact ⟨Or.inl rfl, Or.inl hpf⟩
  · split
    next hcond => exact ⟨Or.inl rfl, Or.inr hcond.1⟩
    next => exact ⟨Or.inl rfl, Or.inl hpf⟩

/-- `submitRpsChoice` preserves the mode invariant. -/
theorem submitRpsChoice_modesInv (s : GameState) (p : Player) (ch : RpsChoice)
    (h : ModesInv s) : ModesInv (submitRpsChoice s p ch).state := by
  rcases submitRpsChoice_spec s p ch with ⟨-, heq⟩ |
    ⟨bi, board, existing, picks, hp, hb, he, hpk, hrest⟩
  · rw [heq]
    exact h
  · have hpf : s.pendingFinalRps = false := by
      rcases h.1 with h1 | h1
      · rw [hp] at h1
        exact Option.noConfusion h1
      · exact h1
    rcases hrest with ⟨-, heq⟩ | ⟨px, po, -, -, ⟨-, heq⟩ | ⟨-, heq⟩⟩ <;> rw [heq]
    · rw [microSubmitTail_of_pending s bi bi _ _ hp]
      exact ⟨Or.inr hpf, Or.inl hpf⟩
    · rw [microSubmitTail_of_pending s bi bi _ _ hp]
      exact ⟨Or.inr hpf, Or.inl hpf⟩
    · exact microDecisiveResult_modesInv s bi board picks px po _ hpf

/-- `submitFinalRpsChoice` preserves the mode invariant. -/
theorem submitFinalRpsChoice_modesInv (s : GameState) (p : Player) (ch : RpsChoice)
    (h : ModesInv s) : ModesInv (submitFinalRpsChoice s p ch).state := by
  rcases submitFinalRpsChoice_spec s p ch with ⟨-, heq⟩ | ⟨fr, picks, hpf, hf, hpk, hrest⟩
  · rw [heq]
    exact h
  · have hrps : s.pendingRpsBoard = none := by
      rcases h.1 with h1 | h1
      · exact h1
      · rw [hpf] at h1
        exact Bool.noConfusion h1
    have hmac : s.macroWinner = none := by
      rcases h.2 with h2 | h2
      · rw [hpf] at h2
        exact Bool.noConfusion h2
      · exact h2
    rcases hrest with ⟨-, heq⟩ | ⟨px, po, -, -, ⟨-, heq⟩ | ⟨-, heq⟩⟩ <;> rw [heq]
    · exact ⟨Or.inl hrps, Or.inr hmac⟩
    · exact ⟨Or.inl hrps, Or.inr hmac⟩
    · simp only [finalDecisiveResult]
      split <;> split
      · exact ⟨Or.inl hrps, Or.inl rfl⟩
      · exact ⟨Or.inl hrps, Or.inr hmac⟩
      · exact ⟨Or.inl hrps, Or.inl rfl⟩
      · exact ⟨Or.inl hrps, Or.inr hmac⟩

/-- Every engine call preserves the mode invariant. -/
theorem applyAction_modesInv (s : GameState) (a : GameAction) (h : ModesInv s) :
    ModesInv (applyAction s a) := by
  cases a with
  | move b c => exact playMove_modesInv s b c h
  | microThrow p ch => exact submitRpsChoice_modesInv s p ch h
  | finalThrow p ch => exact submitFinalRpsChoice_modesInv s p ch h

/-- The mode invariant holds in every reachable state. -/
theorem reachable_modesInv (s : GameState) (h : Reachable s) : ModesInv s := by
  induction h with
  | init => exact ⟨Or.inl rfl, Or.inl rfl⟩
  | step s a _ ih => exact applyAction_modesInv s a ih

/-- C1 (amended): in every reachable state, a pending micro tiebreak
excludes a pending galaxy tiebreak, and a pending galaxy tiebreak
excludes a macro winner.  (The original four-way exclusivity fails: a
macro winner and a pending micro tiebreak can coexist, see the
counterexample.) -/
theorem C1_mode_exclusivities (s : GameState) (h : Reachable s) :
    ¬(s.pendingRpsBoard.isSome = true ∧ s.pendingFinalRps = true) ∧
    ¬(s.pendingFinalRps = true ∧ s.macroWinner.isSome = true) := by
  obtain ⟨h1, h2⟩ := reachable_modesInv s h
  constructor
  · rintro ⟨ha, hb⟩
    rcases h1 with h1 | h1
    · rw [h1] at ha
      exact Bool.noConfusion ha
    · rw [h1] at hb
      exact Bool.noConfusion hb
  · rintro ⟨ha, hb⟩
    rcases h2 with h2 | h2
    · rw [h2] at ha
      exact Bool.noConfusion ha
    · rw [h2] at hb
      simp at hb

/-- Witness for C1: the initial state is reachable and satisfies both
exclusivities. -/
theorem C1_mode_exclusivities_witness :
    ¬(createInitialState.pendingRpsBoard.isSome = true ∧
        createInitialState.pendingFinalRps = true) ∧
    ¬(createInitialState.pendingFinalRps = true ∧
        createInitialState.macroWinner.isSome = true) :=
  C1_mode_exclusivities createInitialState Reachable.init

/-- A full cooperative game in which X completes a macro line while open
boards remain, play then continues (the engine accepts moves after a
macro winner exists), and a later move fills board 8 without a line,
arming a micro tiebreak. -/
def c1Trace : List GameAction :=
  [GameAction.move 7 4, GameAction.move 4 4, GameAction.move 4 1, GameAction.move 1 7,
   GameAction.move 7 7, GameAction.move 7 1, GameAction.move 1 6, GameAction.move 6 4,
   GameAction.move 4 7, GameAction.move 7 5, GameAction.move 5 8, GameAction.move 8 8,
   GameAction.move 8 6, GameAction.move 6 7, GameAction.move 7 8, GameAction.move 8 3,
   GameAction.move 3 0, GameAction.move 0 8, GameAction.move 8 5, GameAction.move 5 7,
   GameAction.move 7 6, GameAction.move 6 2, GameAction.move 2 1, GameAction.move 1 8,
   GameAction.move 8 7, GameAction.move 8 1, GameAction.move 1 3, GameAction.move 3 2,
   GameAction.move 2 3, GameAction.move 3 1, GameAction.move 1 0, GameAction.move 0 1,
   GameAction.move 8 0, GameAction.move 0 3, GameAction.move 3 8, GameAction.move 8 4,
   GameAction.move 4 3, GameAction.move 3 4, GameAction.move 4 6, GameAction.move 6 6,
   GameAction.move 4 8, GameAction.move 8 2]

/-- The state reached by that game. -/
def c1State : GameState := runActions c1Trace

set_option maxRecDepth 100000 in
set_option maxHeartbeats 8000000 in
/-- Counterexample to C1: a reachable state in which two of the four
modes hold at once — `macroWinner` is set and `pendingRpsBoard` is set
(the engine keeps accepting moves after the macro board is decided, and a
later cat board arms a micro tiebreak). -/
theorem C1_counterexample_two_modes :
    Reachable c1State ∧ c1State.macroWinner = some Player.X ∧
    c1State.pendingRpsBoard = some 8 :=
  ⟨reachable_runActions c1Trace, by decide, by decide⟩

/-- Macro winner recomputed by a decisive micro round. -/
theorem microDecisiveResult_macroWin (s : GameState) (bi : Nat) (board : MicroBoardState)
    (picks : Picks) (px po : RpsChoice) (oc : RpsCmp) :
    (microDecisiveResult s bi board picks px po oc).state.macroWinner =
      determineMacroWinner (s.boards.set bi (microWinBoard board picks
        (if oc = RpsCmp.A then Player.X else Player.O))) := by
  simp only [microDecisiveResult]
  split <;> split <;> rfl

/-- A decisive micro round whose macro recomputation finds no winner and
closes the last board arms the galaxy tiebreak. -/
theorem microDecisiveResult_armed (s : GameState) (bi : Nat) (board : MicroBoardState)
    (picks : Picks) (px po : RpsChoice) (oc : RpsCmp)
    (hc : determineMacroWinner (s.boards.set bi (microWinBoard board picks
        (if oc = RpsCmp.A then Player.X else Player.O))) = none ∧
      ((s.boards.set bi (microWinBoard board picks
          (if oc = RpsCmp.A then Player.X else Player.O))).all
        fun bd => bd.winner ≠ none) = true) :
    (microDecisiveResult s bi board picks px po oc).state.pendingFinalRps = true ∧
    (microDecisiveResult s bi board picks px po oc).state.finalRps =
      some (s.finalRps.getD freshFinalRps) := by
  simp only [microDecisiveResult]
  rcases hc with ⟨hm, ha⟩
  split
  next hA =>
    rw [hA] at hm ha
    simp only [if_pos rfl] at hm ha ⊢
    rw [if_pos ⟨hm, ha⟩]
    exact ⟨rfl, rfl⟩
  next hA =>
    rw [if_neg hA] at hm ha
    rw [if_pos ⟨hm, ha⟩]
    exact ⟨rfl, rfl⟩

/-- C3: the arming property of the repaired embedding.  Whenever a
successful `playMove` or a micro-throw submission leaves every board
closed with no macro winner and no micro tiebreak pending, the resulting
state has `pendingFinalRps = true`, and `finalRps` is initialised to
score 0-0 when no tiebreak record existed yet. -/
theorem C3_galaxy_tiebreak_arming :
    (∀ s b c, (playMove s b c).error = none →
      (((playMove s b c).state.boards.all fun bd => bd.winner ≠ none) = true) →
      (playMove s b c).state.macroWinner = none →
      (playMove s b c).state.pendingRpsBoard = none →
      (playMove s b c).state.pendingFinalRps = true ∧
        (s.finalRps = none → (playMove s b c).state.finalRps = some freshFinalRps)) ∧
    (∀ s p ch, (submitRpsChoice s p ch).error = none →
      (((submitRpsChoice s p ch).state.boards.all fun bd => bd.winner ≠ none) = true) →
      (submitRpsChoice s p ch).state.macroWinner = none →
      (submitRpsChoice s p ch).state.pendingRpsBoard = none →
      (submitRpsChoice s p ch).state.pendingFinalRps = true ∧
        (s.finalRps = none → (submitRpsChoice s p ch).state.finalRps = some freshFinalRps)) := by
  constructor
  · intro s b c herr hall hmac hrps
    rcases playMove_spec s b c with ⟨-, heq⟩ | ⟨-, -, heq⟩ | ⟨-, -, -, heq⟩ |
      ⟨-, -, -, -, heq⟩ | ⟨-, -, -, -, heq⟩
    · rw [heq] at herr
      exact Option.noConfusion herr
    · rw [heq] at herr
      exact Option.noConfusion herr
    · rw [heq] at herr
      exact Option.noConfusion herr
    · rw [heq] at herr
      exact Option.noConfusion herr
    · rw [heq] at hall hmac hrps ⊢
      have hall' : pmAllClosed s b c = true := hall
      have hmac' : pmMacro s b c = none := hmac
      have hrps' : pmPendingRps s b c = none := hrps
      have hpf : pmPendingFinal s b c = true := by
        rw [pmPendingFinal, if_pos ⟨hmac', hall', hrps'⟩]
      refine ⟨hpf, fun hfr => ?_⟩
      show pmFinalRps s b c = some freshFinalRps
      rw [pmFinalRps, if_pos ⟨hpf, hfr⟩]
  · intro s p ch herr hall hmac hrps
    rcases submitRpsChoice_spec s p ch with ⟨-, heq⟩ |
      ⟨bi, board, existing, picks, hp, hb, he, hpk, hrest⟩
    · rw [heq] at herr
      exact Option.noConfusion herr
    · rcases hrest with ⟨-, heq⟩ | ⟨px, po, -, -, ⟨-, heq⟩ | ⟨-, heq⟩⟩
      · rw [heq, microSubmitTail_of_pending s bi bi _ _ hp] at hrps
        have hx : s.pendingRpsBoard = none := hrps
        rw [hp] at hx
        exact Option.noConfusion hx
      · rw [heq, microSubmitTail_of_pending s bi bi _ _ hp] at hrps
        have hx : s.pendingRpsBoard = none := hrps
        rw [hp] at hx
        exact Option.noConfusion hx
      · rw [heq] at hall hmac ⊢
        rw [microDecisiveResult_boards] at hall
        rw [microDecisiveResult_macroWin] at hmac
        obtain ⟨h1, h2⟩ := microDecisiveResult_armed s bi board picks px po _ ⟨hmac, hall⟩
        refine ⟨h1, fun hfr => ?_⟩
        rw [h2, hfr]
        rfl

/-- A board already won by X. -/
def wonBoardX : MicroBoardState := { createEmptyBoard with winner := some (MicroWin.won Player.X) }

/-- A board already won by O. -/
def wonBoardO : MicroBoardState := { createEmptyBoard with winner := some (MicroWin.won Player.O) }

/-- Board 8 one move away from an O win (cell 2 completes the top row). -/
def almostFullBoard : MicroBoardState :=
  { createEmptyBoard with
    cells := [some Player.O, some Player.O, none,
              some Player.X, some Player.X, some Player.O,
              some Player.X, some Player.O, some Player.X] }

/-- Eight boards closed without a macro line; board 8 still open and one
move from closing; O to move into board 8. -/
def c3PlayState : GameState :=
  { createInitialState with
    boards := [wonBoardX, wonBoardO, wonBoardX, wonBoardO, wonBoardX, wonBoardO,
               wonBoardO, wonBoardX, almostFullBoard]
    currentPlayer := Player.O
    nextBoard := some 8 }

/-- Like `c3PlayState`, but board 8 is a CAT board whose micro tiebreak
has X's scissors recorded; O's rock will close it decisively. -/
def c3MicroState : GameState :=
  { createInitialState with
    boards := [wonBoardX, wonBoardO, wonBoardX, wonBoardO, wonBoardX, wonBoardO,
               wonBoardO, wonBoardX,
               { createEmptyBoard with
                 winner := some MicroWin.CAT
                 rps := some { picks := ⟨some RpsChoice.scissors, none⟩, lastOutcome := none } }]
    pendingRpsBoard := some 8 }

/-- Witness for C3: both arming paths fire on concrete inputs — O's move
into board 8 closes the last board and arms the galaxy tiebreak at score
0-0, and O's decisive micro throw on the CAT board does the same. -/
theorem C3_galaxy_tiebreak_arming_witness :
    ((playMove c3PlayState 8 2).state.pendingFinalRps = true ∧
      (playMove c3PlayState 8 2).state.finalRps = some freshFinalRps) ∧
    ((submitRpsChoice c3MicroState Player.O RpsChoice.rock).state.pendingFinalRps = true ∧
      (submitRpsChoice c3MicroState Player.O RpsChoice.rock).state.finalRps =
        some freshFinalRps) := by
  have h1 := C3_galaxy_tiebreak_arming.1 c3PlayState 8 2
    (by decide) (by decide) (by decide) (by decide)
  have h2 := C3_galaxy_tiebreak_arming.2 c3MicroState Player.O RpsChoice.rock
    (by decide) (by decide) (by decide) (by decide)
  exact ⟨⟨h1.1, h1.2 (by decide)⟩, ⟨h2.1, h2.2 (by decide)⟩⟩

/-- A state in which X has already won the macro board while six micro
boards are still open. -/
def c4State : GameState :=
  { createInitialState with
    boards := [wonBoardX, wonBoardX, wonBoardX] ++ List.replicate 6 createEmptyBoard
    macroWinner := some Player.X }

/-- Counterexample to C4: `availableMoves` is not empty although the
match has ended (`macroWinner` is set and no tiebreak is pending) — the
legal-board computation never consults `macroWinner`. -/
theorem C4_counterexample_moves_after_macro_win :
    c4State.macroWinner.isSome = true ∧ c4State.pendingRpsBoard = none ∧
    c4State.pendingFinalRps = false ∧ availableMoves c4State ≠ [] := by
  decide

/-- Well-formedness: every open board has at least one empty cell (true
of every reachable state: a board that fills up is immediately closed). -/
def openBoardsPlayable (s : GameState) : Bool :=
  s.boards.all fun bd => decide (bd.winner = none → none ∈ bd.cells)

/-- Well-formedness: the next-board constraint is in range (the source
crashes on out-of-range values, see `getAllowedBoards`). -/
def nextBoardInRange (s : GameState) : Bool :=
  match s.nextBoard with
  | none => true
  | some t => decide (t < s.boards.length)

/-- The per-board move enumeration is non-empty for a board with an
empty cell. -/
theorem movesOf_ne_nil {bd : MicroBoardState} {bi : Nat} (h : none ∈ bd.cells) :
    bd.cells.enum.filterMap
      (fun ci => if ci.2 = none then some (Move.mk bi ci.1) else none) ≠ [] := by
  obtain ⟨i, hi⟩ := List.mem_iff_get?.mp h
  refine List.ne_nil_of_mem (a := Move.mk bi i) (List.mem_filterMap.mpr ?_)
  exact ⟨(i, none), List.mem_enum_iff_get?.mpr hi, by simp⟩

/-- C4 (amended): for well-formed states, `availableMoves` is empty
exactly when a tiebreak is pending or no open board remains;
`macroWinner` plays no role (see the counterexample). -/
theorem C4_availableMoves_empty_iff (s : GameState)
    (h1 : openBoardsPlayable s = true) (h2 : nextBoardInRange s = true) :
    availableMoves s = [] ↔
      (s.pendingRpsBoard.isSome = true ∨ s.pendingFinalRps = true ∨
        openBoardIdxs s.boards = []) := by
  have hmoves : ∀ bi ∈ getAllowedBoards s,
      (((s.boards.get? bi).getD createEmptyBoard).cells.enum.filterMap
        fun ci => if ci.2 = none then some (Move.mk bi ci.1) else none) ≠ [] := by
    intro bi hbi
    obtain ⟨-, -, bd, hget, hwin⟩ := mem_allowed_facts hbi
    rw [hget]
    have hbdmem : bd ∈ s.boards := List.get?_mem hget
    have hcell : none ∈ bd.cells :=
      of_decide_eq_true (List.all_eq_true.mp h1 bd hbdmem) hwin
    exact movesOf_ne_nil hcell
  constructor
  · intro hev
    by_cases hnil : getAllowedBoards s = []
    · unfold getAllowedBoards at hnil
      by_cases hg : s.pendingRpsBoard.isSome = true ∨ s.pendingFinalRps = true
      · rcases hg with hg | hg
        · exact Or.inl hg
        · exact Or.inr (Or.inl hg)
      · rw [if_neg (by simpa using hg)] at hnil
        refine Or.inr (Or.inr ?_)
        cases hnb : s.nextBoard with
        | none =>
            rw [hnb] at hnil
            exact hnil
        | some t =>
            rw [hnb] at hnil
            dsimp only at hnil
            have hlt : t < s.boards.length := by
              have := h2
              unfold nextBoardInRange at this
              rw [hnb] at this
              exact of_decide_eq_true this
            obtain ⟨target, htg⟩ : ∃ a, s.boards.get? t = some a := by
              rw [List.get?_eq_get hlt]
              exact ⟨_, rfl⟩
            rw [htg] at hnil
            dsimp only at hnil
            by_cases hw : target.winner = none
            · rw [if_pos hw] at hnil
              exact absurd hnil (by simp)
            · rw [if_neg hw] at hnil
              exact hnil
    · obtain ⟨bi, hbi⟩ := List.exists_mem_of_ne_nil _ hnil
      have hpart := (List.bind_eq_nil.mp hev) bi hbi
      exact absurd hpart (hmoves bi hbi)
  · intro h
    rcases h with h | h | h
    · unfold availableMoves getAllowedBoards
      rw [if_pos (Or.inl h)]
      rfl
    · unfold availableMoves getAllowedBoards
      rw [if_pos (Or.inr h)]
      rfl
    · unfold availableMoves
      apply List.bind_eq_nil.mpr
      intro bi hbi
      obtain ⟨-, -, bd, hget, hwin⟩ := mem_allowed_facts hbi
      exact absurd h (List.ne_nil_of_mem (mem_openBoardIdxs.mpr ⟨bd, hget, hwin⟩))

/-- Witness for C4: the initial state is well formed and has moves (no
tiebreak pending and open boards remain). -/
theorem C4_availableMoves_empty_iff_witness :
    openBoardsPlayable createInitialState = true ∧
    nextBoardInRange createInitialState = true ∧
    (availableMoves createInitialState = [] ↔
      (createInitialState.pendingRpsBoard.isSome = true ∨
        createInitialState.pendingFinalRps = true ∨
        openBoardIdxs createInitialState.boards = [])) :=
  ⟨by decide, by decide,
    C4_availableMoves_empty_iff createInitialState (by decide) (by decide)⟩

/-- The root minimax fold keeps a best move once it has one. -/
theorem bestFold_isSome (g : Move → ℚ) :
    ∀ (l : List Move) (p : Move × ℚ),
      (l.foldl (bestMoveStep g) (some p)).isSome = true := by
  intro l
  induction l with
  | nil => intro p; rfl
  | cons x xs ih =>
      intro p
      obtain ⟨bm, bs⟩ := p
      simp only [List.foldl_cons, bestMoveStep]
      by_cases hgt : g x > bs
      · rw [if_pos hgt]
        exact ih _
      · rw [if_neg hgt]
        exact ih _

/-- Any move produced by the root minimax fold comes from the folded
list or was already the accumulator's move. -/
theorem bestFold_mem (g : Move → ℚ) :
    ∀ (l : List Move) (acc : Option (Move × ℚ)) (m : Move) (q : ℚ),
      l.foldl (bestMoveStep g) acc = some (m, q) →
      m ∈ l ∨ acc = some (m, q) := by
  intro l
  induction l with
  | nil => exact fun acc m q h => Or.inr h
  | cons x xs ih =>
      intro acc m q h
      simp only [List.foldl_cons] at h
      rcases ih _ m q h with hmem | hacc
      · exact Or.inl (List.mem_cons_of_mem _ hmem)
      · cases acc with
        | none =>
            obtain rfl : x = m := congrArg Prod.fst (Option.some.inj hacc)
            exact Or.inl (List.mem_cons_self _ _)
        | some p =>
            obtain ⟨bm, bs⟩ := p
            rw [show bestMoveStep g (some (bm, bs)) x =
                if g x > bs then some (x, g x) else some (bm, bs) from rfl] at hacc
            by_cases hgt : g x > bs
            · rw [if_pos hgt] at hacc
              obtain rfl : x = m := congrArg Prod.fst (Option.some.inj hacc)
              exact Or.inl (List.mem_cons_self _ _)
            · rw [if_neg hgt] at hacc
              exact Or.inr hacc

/-- C9: for every state, oracle value and AI level, `chooseAIMove`
returns `none` exactly when `availableMoves` is empty, and otherwise one
of the enumerated legal moves. -/
theorem C9_ai_moves_are_legal (rand : Nat) (s : GameState) (level : BotLevel) :
    (chooseAIMove rand s level = none ∧ availableMoves s = []) ∨
    (∃ m, chooseAIMove rand s level = some m ∧ m ∈ availableMoves s) := by
  cases hmv : availableMoves s with
  | nil =>
      refine Or.inl ⟨?_, rfl⟩
      simp only [chooseAIMove, hmv]
      rfl
  | cons m ms =>
      refine Or.inr ?_
      by_cases hez : level = BotLevel.easy
      · subst hez
        have hlt : rand % (m :: ms).length < (m :: ms).length :=
          Nat.mod_lt _ (Nat.succ_pos _)
        obtain ⟨mv, hmveq⟩ : ∃ a, (m :: ms).get? (rand % (m :: ms).length) = some a := by
          rw [List.get?_eq_get hlt]
          exact ⟨_, rfl⟩
        refine ⟨mv, ?_, List.get?_mem hmveq⟩
        simp only [chooseAIMove]
        rw [hmv, if_neg (by simp), if_pos trivial]
        exact hmveq
      · have hps : s.pendingRpsBoard.isSome = false := by
          cases hps : s.pendingRpsBoard with
          | none => rfl
          | some j =>
              exfalso
              have hempty : availableMoves s = [] := by
                unfold availableMoves getAllowedBoards
                rw [if_pos (Or.inl (by rw [hps]; rfl))]
                rfl
              rw [hmv] at hempty
              exact List.noConfusion hempty
        have hfold := bestFold_isSome
          (fun mv : Move => minimax (playMove s mv.board mv.cell).state
            ((if level = BotLevel.hard then 3 else 2) - 1) false s.currentPlayer)
          ms (m, minimax (playMove s m.board m.cell).state
            ((if level = BotLevel.hard then 3 else 2) - 1) false s.currentPlayer)
        obtain ⟨⟨mv, q⟩, hsome⟩ := Option.isSome_iff_exists.mp hfold
        have hmem : mv ∈ m :: ms := by
          rcases bestFold_mem _ ms _ mv q hsome with hm | hm
          · exact List.mem_cons_of_mem _ hm
          · obtain rfl : m = mv := congrArg Prod.fst (Option.some.inj hm)
            exact List.mem_cons_self _ _
        refine ⟨mv, ?_, hmem⟩
        simp only [chooseAIMove]
        rw [hmv, if_neg (by simp), if_neg hez,
          if_neg (by rw [hps]; exact Bool.false_ne_true)]
        simp only [List.foldl_cons]
        rw [show bestMoveStep (fun mv : Move => minimax (playMove s mv.board mv.cell).state
            ((if level = BotLevel.hard then 3 else 2) - 1) false s.currentPlayer) none m =
          some (m, minimax (playMove s m.board m.cell).state
            ((if level = BotLevel.hard then 3 else 2) - 1) false s.currentPlayer) from rfl]
        rw [hsome]

/-! ## Serialisation round trip (C10) -/

/-- Throw names decode back. -/
theorem decodeChoice_name (c : RpsChoice) :
    decodeChoice (Json.str (rpsChoiceName c)) = some c := by
  cases c <;> rfl

/-- Picks objects decode back. -/
theorem decodePicks_serializePicks (p : Picks) : decodePicks (serializePicks p) = p := by
  obtain ⟨x, o⟩ := p
  cases x <;> cases o <;>
    simp [decodePicks, serializePicks, Json.getField, List.find?, decodeChoice_name]

/-- Outcome values decode back. -/
theorem decodeOutcome_outcomeJson (o : RpsOutcome) :
    decodeOutcome (outcomeJson o) = some o := by
  rcases o with p | _
  · cases p <;> rfl
  · rfl

/-- Micro-tiebreak records decode back. -/
theorem decodeRps_serializeRpsState (r : RpsState) :
    decodeRps (serializeRpsState r) = some r := by
  obtain ⟨picks, lastOutcome⟩ := r
  cases lastOutcome with
  | none =>
      simp [decodeRps, serializeRpsState, fieldOr, Json.getField, List.find?,
        decodePicks_serializePicks]
  | some o =>
      simp [decodeRps, serializeRpsState, fieldOr, Json.getField, List.find?,
        decodePicks_serializePicks, decodeOutcome_outcomeJson]

/-- Cells decode back. -/
theorem decodeCell_serializeCell (c : Cell) : decodeCell (serializeCell c) = c := by
  rcases c with _ | p
  · rfl
  · cases p <;> rfl

/-- Mapping a pointwise inverse over a mapped list restores it. -/
theorem listMapInverse {α β : Type} (f : α → β) (g : β → α) (h : ∀ x, g (f x) = x) :
    ∀ xs : List α, (xs.map f).map g = xs := by
  intro xs
  induction xs with
  | nil => rfl
  | cons x rest ih =>
      simp only [List.map_cons, ih, h]

/-- Winner fields decode back. -/
theorem decodeWinner_serializeWinner (w : Option MicroWin) :
    decodeWinner (serializeWinner w) = w := by
  rcases w with _ | wv
  · rfl
  · rcases wv with p | _
    · cases p <;> rfl
    · rfl

/-- Optional micro-tiebreak records decode back. -/
theorem decodeRps_optJson (r : Option RpsState) :
    decodeRps (optJson serializeRpsState r) = r := by
  rcases r with _ | rv
  · rfl
  · exact decodeRps_serializeRpsState rv

/-- Micro boards decode back. -/
theorem decodeBoard_serializeBoard (b : MicroBoardState) :
    decodeBoard (serializeBoard b) = b := by
  obtain ⟨cells, winner, rps⟩ := b
  simp [decodeBoard, serializeBoard, fieldOr, Json.getField, List.find?,
    listMapInverse serializeCell decodeCell decodeCell_serializeCell,
    decodeWinner_serializeWinner, decodeRps_optJson, -List.map_map]

/-- Galaxy-tiebreak records decode back. -/
theorem decodeFinalRps_serializeFinalRps (f : FinalRpsState) :
    decodeFinalRps (serializeFinalRps f) = some f := by
  obtain ⟨picks, lastOutcome, ⟨sx, so⟩, rounds⟩ := f
  cases lastOutcome with
  | none =>
      simp [decodeFinalRps, serializeFinalRps, fieldOr, Json.getField, List.find?,
        decodePicks_serializePicks, decodeInt]
  | some o =>
      simp [decodeFinalRps, serializeFinalRps, fieldOr, Json.getField, List.find?,
        decodePicks_serializePicks, decodeOutcome_outcomeJson, decodeInt]

/-- Optional players decode back. -/
theorem decodeOptPlayer_optJson (w : Option Player) :
    decodeOptPlayer (optJson playerJson w) = w := by
  rcases w with _ | p
  · rfl
  · cases p <;> rfl

/-- Players decode back. -/
theorem decodePlayer_playerJson (p : Player) : decodePlayer (playerJson p) = p := by
  cases p <;> rfl

/-- Optional board indices decode back. -/
theorem decodeOptNat_optJson (v : Option Nat) :
    decodeOptNat (optJson (fun n : Nat => Json.num n) v) = v := by
  rcases v with _ | n
  · rfl
  · simp [decodeOptNat, optJson]

/-- Optional galaxy records decode back. -/
theorem decodeFinalRps_optJson (v : Option FinalRpsState) :
    decodeFinalRps (optJson serializeFinalRps v) = v := by
  rcases v with _ | f
  · rfl
  · exact decodeFinalRps_serializeFinalRps f

/-- Name records decode back. -/
theorem decodeNames_roundtrip (m : PlayerMap String) :
    decodeNames (Json.obj [("X", Json.str m.X), ("O", Json.str m.O)]) = m := by
  obtain ⟨x, o⟩ := m
  simp [decodeNames, fieldOr, Json.getField, List.find?]

/-- Bot levels decode back. -/
theorem decodeBotLevel_name (b : BotLevel) :
    decodeBotLevel (Json.str (botLevelName b)) = b := by
  cases b <;> rfl

/-- C10 (amended): serialising then parsing a nine-board state restores
it exactly; a missing / unparseable input falls back to the initial
state, as does a `boards` entry whose array does not have exactly nine
elements or a missing `boards` key.  (States missing other required
fields are merged over the initial state, not replaced by it — see the
counterexample.) -/
theorem C10_serialization_roundtrip :
    (∀ s : GameState, s.boards.length = 9 → parseState (some (serializeState s)) = s) ∧
    parseState none = createInitialState ∧
    (∀ j bs, Json.getField j "boards" = some (Json.arr bs) → bs.length ≠ 9 →
      parseState (some j) = createInitialState) ∧
    (∀ j, Json.getField j "boards" = none → parseState (some j) = createInitialState) := by
  refine ⟨fun s hlen => ?_, rfl, fun j bs hb hlen => ?_, fun j hb => ?_⟩
  · obtain ⟨boards, mw, cp, nb, prb, pf, fr, names, bots⟩ := s
    have hlen' : boards.length = 9 := hlen
    simp [parseState, serializeState, Json.getField, List.find?, fieldOr, hlen',
      listMapInverse serializeBoard decodeBoard decodeBoard_serializeBoard,
      decodeOptPlayer_optJson, decodePlayer_playerJson, decodeOptNat_optJson,
      decodeFinalRps_optJson, decodeBool, decodeBotLevel_name, -List.map_map,
      decodeNames, GameState.mk.injEq]
  · simp only [parseState, hb]
    rw [if_neg hlen]
  · simp only [parseState, hb]

/-- Nine well-formed boards, the first holding one X mark. -/
def c10Boards : List MicroBoardState :=
  { createEmptyBoard with cells := createEmptyBoard.cells.set 0 (some Player.X) } ::
    List.replicate 8 createEmptyBoard

/-- An input with a valid nine-board array but every other required
top-level field (currentPlayer, names, bots, ...) missing. -/
def c10Json : Json := Json.obj [("boards", Json.arr (c10Boards.map serializeBoard))]

/-- Counterexample to C10: an input missing required fields is not
replaced by `createInitialState()` — the present `boards` are kept and
merged over the initial state, yielding a different state. -/
theorem C10_counterexample_missing_fields_merged :
    (Json.getField c10Json "currentPlayer").isNone = true ∧
    (Json.getField c10Json "names").isNone = true ∧
    parseState (some c10Json) ≠ createInitialState ∧
    parseState (some c10Json) = { createInitialState with boards := c10Boards } := by
  decide

/-- Witness for C10: the initial state round-trips, and a one-element
boards array falls back to the initial state. -/
theorem C10_serialization_roundtrip_witness :
    createInitialState.boards.length = 9 ∧
    parseState (some (serializeState createInitialState)) = createInitialState ∧
    parseState (some (Json.obj [("boards", Json.arr [Json.null])])) = createInitialState :=
  ⟨by decide, C10_serialization_roundtrip.1 createInitialState (by decide),
    C10_serialization_roundtrip.2.2.1 _ [Json.null] rfl (by decide)⟩
